import Mathlib

/-! The asynchronous frame-capture pipeline of the rspiusb driver.

A shallow embedding of `src/usb/rspiusb.c` (the build without `USE_DMA_MAPPING`,
lines 443-699, together with `piusb_ioctl`, `piusb_open` and the presence flag
handling of `piusb_probe` / `piusb_disconnect`).

Conventions of the embedding.

* `struct device_extension` and `ioctl_struct` are declared in `rspiusb.h`, which is
  not among the sources.  Their integer fields are kept as mathematical integers.
  Every conversion that the C file itself makes visible (a cast, a typed local
  variable, a function return type) is modelled with explicit wrap-around, for the
  LP64 data model of a 64 bit Linux kernel (`int` 32 bit, `unsigned long` 64 bit).
* Pointers to arrays are `Option (List _)`; `none` is `NULL`.  Arrays obtained from
  `kmalloc` start with `NULL` / `0` entries.  Memory safety is outside the model: an
  access outside an array, or through a `NULL` array pointer, reads a default value
  and writes nothing (the C behaviour there is undefined).  The one exception is the
  entry of `get_pixel_data`, which loads through `pdx->PixelUrb` and
  `pdx->user_buffer` on every call, before any test (lines 649-650): there a `NULL`
  array pointer is a trap, as a division by zero is.
* Arithmetic is inside the model: a division by zero is a trap; functions that can
  trap return `Option`, and `none` is the trap.
* Calls into the kernel (allocation, `usb_submit_urb`, `access_ok`, `copy_to_user`,
  the vendor and blocking transfers) are answered by an explicit environment
  argument, and the calls with an effect outside the session state are returned as a
  trace of events.
-/

namespace Rspiusb

/-! ## Machine integers -/

/-- The value a C `int` holds after the integer `n` is converted to it. -/
def toInt32 (n : Int) : Int := (n + 2147483648) % 4294967296 - 2147483648

/-- The value a C `unsigned int` holds after the integer `n` is converted to it. -/
def toUInt32 (n : Int) : Nat := (n % 4294967296).toNat

/-- The value a C `unsigned long` holds after the integer `n` is converted to it. -/
def toULong (n : Int) : Nat := (n % 18446744073709551616).toNat

/-! ## Error numbers (`linux/errno.h`) -/

def EPERM : Int := 1
def ENOENT : Int := 2
def ENOMEM : Int := 12
def EFAULT : Int := 14
def ENODEV : Int := 19
def EINVAL : Int := 22
def ENOTTY : Int := 25
def EPIPE : Int := 32
def ECONNRESET : Int := 104
def ESHUTDOWN : Int := 108

/-! ## Constants -/

/-- Maximum size of one allocation block (line 535). -/
def MAX_BUFFER_SIZE : Int := 102400

/-- Modelled from the spec: `rspiusb.h` is not among the sources; the product id of
the ping-pong device.  Only its being different from `ST133_PID` is used. -/
def PIXIS_PID : Int := 0xA026

/-- Modelled from the spec: `rspiusb.h` is not among the sources; the product id of
the single-pipe device. -/
def ST133_PID : Int := 0xA010

/-! ## Data model -/

/-- The fields of `struct urb` that the driver reads or writes. -/
structure Urb where
  pipe : Nat
  transfer_buffer_length : Nat
  actual_length : Nat
  status : Int
deriving DecidableEq, Repr

/-- The fields of `ioctl_struct` that the pipeline reads. -/
structure ioctl_struct where
  numbytes : Nat
  endpoint : Int
  numFrames : Int
  pData : Nat
deriving DecidableEq, Repr

/-- The session: `struct device_extension` together with the two file-level
counters `lastErr` and `errCnt` (lines 59-60). -/
structure State where
  present : Bool
  iama : Int
  hEP : List Nat
  frameSize : Nat
  num_frames : Int
  active_frame : Int
  frameIdx : Int
  urbIdx : Int
  gotPixelData : Int
  pendingWrite : Int
  bulk_in_byte_trk : Nat
  bulk_in_size_returned : Int
  PixelUrb : Option (List (Option (List (Option Urb))))
  sgEntries : Option (List Nat)
  pendedPixelUrbs : Option (List (Option (List Nat)))
  user_buffer : Option (List Nat)
  sgl : Bool
  maplist_numPagesMapped : Bool
  lastErr : Int
  errCnt : Int
deriving DecidableEq, Repr

/-- Calls that leave the session state: what the transport and the consumer see. -/
inductive Event where
  | submit (frame : Int) (urb : Nat)
  | kill (frame : Int) (urb : Nat)
  | free (frame : Int) (urb : Nat)
  | copy_to_user (to_buf : Nat) (urb : Nat) (length : Nat)
deriving DecidableEq, Repr

/-- The result of a control-plane call: the state it leaves, the value it returns and
the outside calls it made, in order. -/
structure Outcome where
  state : State
  retval : Int
  trace : List Event
deriving DecidableEq, Repr

/-! ## Array access -/

/-- Read `a[i]` for a C index `i`. -/
def getAt {α : Type} (a : List α) (i : Int) : Option α :=
  if 0 ≤ i then a[i.toNat]? else none

/-- Write `a[i] = v` for a C index `i`. -/
def setAt {α : Type} (a : List α) (i : Int) (v : α) : List α :=
  if 0 ≤ i then a.set i.toNat v else a

/-- The urbs of frame `f`: `pdx->PixelUrb[f]`, entry by entry. -/
def frameUrbs (s : State) (f : Int) : List (Option Urb) :=
  (((getAt (s.PixelUrb.getD []) f).getD none).getD [])

/-- The value `pdx->sgEntries[f]`. -/
def sgEntriesAt (s : State) (f : Int) : Nat :=
  ((getAt (s.sgEntries.getD []) f).getD 0)

/-- The value `pdx->user_buffer[f]`. -/
def userBufferAt (s : State) (f : Int) : Nat :=
  ((getAt (s.user_buffer.getD []) f).getD 0)

/-- The value `pdx->pendedPixelUrbs[f][i]`. -/
def pendedAt (s : State) (f : Int) (i : Int) : Nat :=
  ((getAt (((getAt (s.pendedPixelUrbs.getD []) f).getD none).getD []) i).getD 0)

/-- The write `pdx->pendedPixelUrbs[f][i] = v`. -/
def setPended (p : Option (List (Option (List Nat)))) (f i : Int) (v : Nat) :
    Option (List (Option (List Nat))) :=
  p.map fun rows =>
    match getAt rows f with
    | some (some row) => setAt rows f (some (setAt row i v))
    | _ => rows

/-! ## Completion handler (lines 443-474) -/

/-- The test of line 448-450: an error status other than the three unlink ones. -/
def isHardError (status : Int) : Bool :=
  decide (status ≠ 0) &&
    !(decide (status = -ENOENT) || decide (status = -ECONNRESET) ||
      decide (status = -ESHUTDOWN))

/-- The completion handler `piusb_read_pixel_callback`. -/
def piusb_read_pixel_callback (s : State) (urb : Urb) : Option State :=
  if isHardError urb.status then
    some { s with
      pendedPixelUrbs := setPended s.pendedPixelUrbs s.frameIdx s.urbIdx 0
      gotPixelData := -EPIPE }
  else
    let trk := s.bulk_in_byte_trk + urb.actual_length
    if s.frameSize ≤ trk then
      if s.num_frames = 0 then none
      else
        some { s with
          bulk_in_size_returned := trk
          bulk_in_byte_trk := 0
          gotPixelData := 1
          frameIdx := Int.tmod (s.frameIdx + 1) s.num_frames
          urbIdx := 0 }
    else
      some { s with bulk_in_byte_trk := trk, urbIdx := s.urbIdx + 1 }

/-! ## Chunking (lines 570-576 and 592-594) -/

/-- Line 570: `buf_size = min((int)numbytes, MAX_BUFFER_SIZE)`, stored in an
`unsigned int`. -/
def buf_size (numbytes : Nat) : Nat :=
  toUInt32 (min (toInt32 (Int.ofNat numbytes)) MAX_BUFFER_SIZE)

/-- Line 572: `size_last = numbytes % buf_size`, stored in an `unsigned int`. -/
def size_last (numbytes : Nat) : Nat :=
  toUInt32 (Int.ofNat (toULong (Int.ofNat numbytes) % buf_size numbytes))

/-- Lines 571-574: the number of urbs, an `int`. -/
def numurb (numbytes : Nat) : Int :=
  let n := toInt32 (Int.ofNat (toULong (Int.ofNat numbytes) / buf_size numbytes))
  if size_last numbytes ≠ 0 then toInt32 (n + 1) else n

/-- Lines 592-594 and 609: the length given to urb `i`, as stored in the urb. -/
def urbSize (numbytes : Nat) (i : Nat) : Nat :=
  let size : Int :=
    if size_last numbytes ≠ 0 ∧ Int.ofNat i = numurb numbytes - 1 then
      toInt32 (Int.ofNat (size_last numbytes))
    else toInt32 (Int.ofNat (buf_size numbytes))
  toUInt32 size

/-! ## Arming a frame (lines 541-645) -/

/-- The answers of the kernel to the calls `MapUserBuffer` makes: whether the two
`kzalloc` calls (lines 578 and 584) succeed and, for urb `i`, whether `usb_alloc_urb`
and `usb_alloc_coherent` succeed and what `usb_submit_urb` returns. -/
structure ArmEnv where
  kzalloc_urbs : Bool
  kzalloc_pended : Bool
  usb_alloc_urb : Nat → Bool
  usb_alloc_coherent : Nat → Bool
  usb_submit_urb : Nat → Int

/-- Lines 558-567: the endpoint of frame `f`. -/
def epAddr (s : State) (f : Int) : Nat :=
  if s.iama = PIXIS_PID then
    if Int.tmod f 2 ≠ 0 then s.hEP.getD 3 0 else s.hEP.getD 2 0
  else s.hEP.getD 0 0

/-- An urb as `usb_alloc_urb` returns it. -/
def freshUrb : Urb :=
  { pipe := 0, transfer_buffer_length := 0, actual_length := 0, status := 0 }

/-- The allocation loop of lines 591-612, from urb `i` on, `k` urbs to go; `acc` are
the entries of `PixelUrb[f]` filled so far.  The flag tells whether every allocation
succeeded. -/
def allocLoop (env : ArmEnv) (ep numbytes : Nat) :
    Nat → Nat → List (Option Urb) → Bool × List (Option Urb)
  | 0, _, acc => (true, acc)
  | k + 1, i, acc =>
    if !env.usb_alloc_urb i then (false, acc)
    else if !env.usb_alloc_coherent i then (false, acc ++ [some freshUrb])
    else
      allocLoop env ep numbytes k (i + 1)
        (acc ++ [some { freshUrb with
          pipe := ep, transfer_buffer_length := urbSize numbytes i }])

/-- The submission loop of lines 614-623, from urb `i` on, `k` urbs to go: the value
of `retval`, the pending flags and the submissions made. -/
def submitLoop (env : ArmEnv) (f : Int) :
    Nat → Nat → List Nat → List Event → Int × List Nat × List Event
  | 0, _, pend, tr => (0, pend, tr)
  | k + 1, i, pend, tr =>
    if env.usb_submit_urb i ≠ 0 then
      (env.usb_submit_urb i, pend.set i 0, tr ++ [Event.submit f i])
    else submitLoop env f k (i + 1) (pend.set i 1) (tr ++ [Event.submit f i])

/-- The loop at `error_kill` (lines 627-630). -/
def killEvents (f : Int) (pend : List Nat) (n : Nat) : List Event :=
  ((List.range n).filter fun i => pend.getD i 0 ≠ 0).map fun i => Event.kill f i

/-- The loop at `error` (lines 632-639). -/
def freeEvents (f : Int) (urbs : List (Option Urb)) (n : Nat) : List Event :=
  ((List.range n).filter fun i => (urbs.getD i none).isSome).map fun i => Event.free f i

/-- The value of `MapUserBuffer`: arm frame `io->numFrames` with `io->numbytes` bytes. -/
def MapUserBuffer (env : ArmEnv) (io : ioctl_struct) (s : State) : Option Outcome :=
  match s.PixelUrb with
  | none => some ⟨s, -EINVAL, []⟩
  | some rows =>
    let f := io.numFrames
    if buf_size io.numbytes = 0 then none
    else
      let n := numurb io.numbytes
      let s1 : State := { s with
        user_buffer := s.user_buffer.map fun b => setAt b f io.pData
        sgEntries := s.sgEntries.map fun e => setAt e f (toUInt32 n) }
      let failed (retval : Int) (tr : List Event) : Outcome :=
        ⟨{ s1 with
            PixelUrb := some (setAt rows f none)
            pendedPixelUrbs := s1.pendedPixelUrbs.map fun p => setAt p f none },
          retval, tr⟩
      if !env.kzalloc_urbs then
        some ⟨{ s1 with PixelUrb := some (setAt rows f none) }, -ENOMEM, []⟩
      else if !env.kzalloc_pended then
        some (failed (-ENOMEM) [])
      else
        let zeroed : List Nat := List.replicate n.toNat 0
        match allocLoop env (epAddr s f) io.numbytes n.toNat 0 [] with
        | (false, urbs) => some (failed (-ENOMEM) (freeEvents f urbs n.toNat))
        | (true, urbs) =>
          match submitLoop env f n.toNat 0 zeroed [] with
          | (retval, pend, tr) =>
            if retval ≠ 0 then
              some (failed retval
                (tr ++ killEvents f pend n.toNat ++ freeEvents f urbs n.toNat))
            else
              some ⟨{ s1 with
                  PixelUrb := some (setAt rows f (some urbs))
                  pendedPixelUrbs :=
                    s1.pendedPixelUrbs.map fun p => setAt p f (some pend) },
                0, tr⟩

/-! ## Readout (lines 647-699) -/

/-- The answers of the kernel to the calls `get_pixel_data` makes: `access_ok` for a
destination address and a length, and `usb_submit_urb` for urb `i`. -/
structure DrainEnv where
  access_ok : Nat → Nat → Bool
  usb_submit_urb : Nat → Int

/-- What the loop of lines 672-694 leaves behind. -/
structure DrainLoop where
  fault : Bool
  errCnt : Int
  lastErr : Int
  trace : List Event
deriving DecidableEq, Repr

/-- The loop of lines 672-694 from urb `i` on, `k` urbs to go, with the destination
pointer at `to_buf`. -/
def drainLoop (env : DrainEnv) (f : Int) (urbs : List (Option Urb)) :
    Nat → Nat → Nat → DrainLoop → DrainLoop
  | 0, _, _, acc => acc
  | k + 1, i, to_buf, acc =>
    let length := ((urbs.getD i none).getD freshUrb).actual_length
    if !env.access_ok to_buf length then { acc with fault := true }
    else
      let err := env.usb_submit_urb i
      let tr := acc.trace ++ [Event.copy_to_user to_buf i length, Event.submit f i]
      let acc1 : DrainLoop :=
        if err ≠ 0 ∧ err ≠ -EPERM then
          { acc with
            errCnt := acc.errCnt + 1
            lastErr := if err ≠ acc.lastErr then err else acc.lastErr
            trace := tr }
        else { acc with trace := tr }
      drainLoop env f urbs k (i + 1) (to_buf + length) acc1

/-- The arrays `pdx->PixelUrb` and `pdx->user_buffer` exist: the two pointers that
lines 649-650 load through are not `NULL`. -/
def ringExists (s : State) : Bool := s.PixelUrb.isSome && s.user_buffer.isSome

/-- The value of `get_pixel_data`.  The declarations of lines 649-650 load
`pdx->PixelUrb[active_frame]` and `pdx->user_buffer[active_frame]` before the ready
flag is tested: without the two arrays the call traps there (`none`).  The values
loaded are used by the loop. -/
def get_pixel_data (env : DrainEnv) (s : State) : Option Outcome :=
  if !ringExists s then none
  else if s.gotPixelData = 0 then some ⟨s, 0, []⟩
  else if s.gotPixelData < 0 then
    some ⟨{ s with gotPixelData := 0 },
      toInt32 (Int.ofNat (toULong (Int.ofNat s.frameSize))), []⟩
  else
    let numbytes := toULong s.bulk_in_size_returned
    let r := drainLoop env s.active_frame (frameUrbs s s.active_frame)
      (sgEntriesAt s s.active_frame) 0 (userBufferAt s s.active_frame)
      ⟨false, s.errCnt, s.lastErr, []⟩
    let s1 : State := { s with
      gotPixelData := 0
      bulk_in_size_returned := s.bulk_in_size_returned - s.frameSize
      errCnt := r.errCnt
      lastErr := r.lastErr }
    if r.fault then some ⟨s1, -EFAULT, r.trace⟩
    else if s.num_frames = 0 then none
    else
      some ⟨{ s1 with active_frame := Int.tmod (s.active_frame + 1) s.num_frames },
        toInt32 (Int.ofNat numbytes), r.trace⟩

/-! ## Teardown (lines 480-528) -/

/-- The calls of the first loop of `UnMapUserBuffer` (lines 489-501). -/
def unmapEvents (s : State) : List Event :=
  (List.range s.num_frames.toNat).flatMap fun k =>
    (List.range (sgEntriesAt s k)).flatMap fun i => [Event.kill k i, Event.free k i]

/-- The value of `UnMapUserBuffer`. -/
def UnMapUserBuffer (s : State) : Outcome :=
  match s.PixelUrb with
  | none => ⟨s, -EINVAL, []⟩
  | some _ =>
    ⟨{ s with
        PixelUrb := none
        pendedPixelUrbs := none
        sgEntries := none
        maplist_numPagesMapped := false
        user_buffer := none
        errCnt := if 0 < s.num_frames then 0 else s.errCnt },
      0, unmapEvents s⟩

/-! ## Control-plane dispatch (lines 754-970) -/

/-- The command codes of `rspiusb.h`, by name; `unknown` is any other code. -/
inductive Cmd where
  | PIUSB_GETVNDCMD
  | PIUSB_SETVNDCMD
  | PIUSB_ISHIGHSPEED
  | PIUSB_WRITEPIPE
  | PIUSB_USERBUFFER
  | PIUSB_UNMAP_USERBUFFER
  | PIUSB_READPIPE
  | PIUSB_WHATCAMERA
  | PIUSB_SETFRAMESIZE
  | unknown (code : Nat)
deriving DecidableEq, Repr

/-- The answers of the kernel to the calls `piusb_ioctl` makes.

* `arg_access_err`: the check of lines 776-779 on the argument fails;
* `copy_from_user_fails`: reading the `ioctl_struct` fails;
* `devRB`, `usb_control_msg`: what the vendor requests return;
* `high_speed`: the speed of the device;
* `pData_access_ok`, `write_alloc`, `write_copy_fails`, `write_submit`: the calls of
  the `PIUSB_WRITEPIPE` path and of `piusb_write_bulk`;
* `read_result`: the value of the blocking read `piusb_read_io`;
* `kmalloc k`: whether allocation number `k` of lines 946-957 succeeds;
* `arm`, `drain`: the environments of `MapUserBuffer` and `get_pixel_data`. -/
structure IoctlEnv where
  arg_access_err : Bool
  copy_from_user_fails : Bool
  devRB : Nat
  usb_control_msg : Int
  high_speed : Bool
  pData_access_ok : Bool
  write_alloc : Bool
  write_copy_fails : Bool
  write_submit : Int
  read_result : Int
  kmalloc : Nat → Bool
  arm : ArmEnv
  drain : DrainEnv

/-- The value of `piusb_write_bulk` (lines 92-130). -/
def piusb_write_bulk (env : IoctlEnv) (len : Int) (s : State) : Outcome :=
  if !env.write_alloc then ⟨s, -ENOMEM, []⟩
  else if env.write_copy_fails then ⟨s, -EFAULT, []⟩
  else if env.write_submit ≠ 0 then ⟨s, env.write_submit, []⟩
  else ⟨{ s with pendingWrite := 1 }, len, []⟩

/-- An array of `n` entries as one of the allocations of lines 946-957 returns it. -/
def newArray {α : Type} (ok : Bool) (n : Int) (v : α) : Option (List α) :=
  if ok && decide (0 ≤ n) then some (List.replicate n.toNat v) else none

/-- The `PIUSB_SETFRAMESIZE` case after the `ioctl_struct` has been read (lines
919-958). -/
def setFrameSize (env : IoctlEnv) (ctrl : ioctl_struct) (s : State) : Outcome :=
  if s.PixelUrb.isSome then ⟨s, -EINVAL, []⟩
  else
    ⟨{ s with
        frameSize := ctrl.numbytes
        num_frames := ctrl.numFrames
        active_frame := 0
        sgl := s.sgl || (env.kmalloc 0 && decide (0 ≤ ctrl.numFrames))
        sgEntries :=
          if s.sgEntries.isSome then s.sgEntries
          else newArray (env.kmalloc 1) ctrl.numFrames 0
        PixelUrb := newArray (env.kmalloc 2) ctrl.numFrames none
        maplist_numPagesMapped :=
          s.maplist_numPagesMapped || (env.kmalloc 3 && decide (0 ≤ ctrl.numFrames))
        pendedPixelUrbs :=
          if s.pendedPixelUrbs.isSome then s.pendedPixelUrbs
          else newArray (env.kmalloc 4) ctrl.numFrames none
        user_buffer :=
          if s.user_buffer.isSome then s.user_buffer
          else newArray (env.kmalloc 5) ctrl.numFrames 0 },
      0, []⟩

/-- The `PIUSB_READPIPE` case after the `ioctl_struct` has been read (lines
877-907). -/
def readPipe (env : IoctlEnv) (ctrl : ioctl_struct) (s : State) : Option Outcome :=
  if s.iama = PIXIS_PID then
    if ctrl.endpoint = 0 ∨ ctrl.endpoint = 4 then some ⟨s, env.read_result, []⟩
    else if ctrl.endpoint = 2 ∨ ctrl.endpoint = 3 then get_pixel_data env.drain s
    else some ⟨s, -EINVAL, []⟩
  else
    if ctrl.endpoint = 0 then get_pixel_data env.drain s
    else if ctrl.endpoint = 1 then some ⟨s, env.read_result, []⟩
    else some ⟨s, -EINVAL, []⟩

/-- The value of `piusb_ioctl` for command `cmd` whose argument holds `ctrl`. -/
def piusb_ioctl (env : IoctlEnv) (cmd : Cmd) (ctrl : ioctl_struct) (s : State) :
    Option Outcome :=
  if !s.present then
    some ⟨s, if cmd = Cmd.PIUSB_READPIPE then 0 else -ENODEV, []⟩
  else if env.arg_access_err then some ⟨s, -EFAULT, []⟩
  else
    match cmd with
    | Cmd.PIUSB_GETVNDCMD =>
      if env.copy_from_user_fails then some ⟨s, -EFAULT, []⟩
      else if ctrl.numbytes ≠ 2 then some ⟨s, -EINVAL, []⟩
      else some ⟨s, Int.ofNat env.devRB, []⟩
    | Cmd.PIUSB_SETVNDCMD =>
      if env.copy_from_user_fails then some ⟨s, -EFAULT, []⟩
      else if 8 < ctrl.numbytes then some ⟨s, -EINVAL, []⟩
      else some ⟨s, env.usb_control_msg, []⟩
    | Cmd.PIUSB_ISHIGHSPEED => some ⟨s, if env.high_speed then 1 else 0, []⟩
    | Cmd.PIUSB_WRITEPIPE =>
      if env.copy_from_user_fails then some ⟨s, -EFAULT, []⟩
      else if !env.pData_access_ok then some ⟨s, -EFAULT, []⟩
      else some (piusb_write_bulk env (toInt32 (Int.ofNat ctrl.numbytes)) s)
    | Cmd.PIUSB_USERBUFFER =>
      if env.copy_from_user_fails then some ⟨s, -EFAULT, []⟩
      else MapUserBuffer env.arm ctrl s
    | Cmd.PIUSB_UNMAP_USERBUFFER => some (UnMapUserBuffer s)
    | Cmd.PIUSB_READPIPE =>
      if env.copy_from_user_fails then some ⟨s, -EFAULT, []⟩
      else readPipe env ctrl s
    | Cmd.PIUSB_WHATCAMERA => some ⟨s, s.iama, []⟩
    | Cmd.PIUSB_SETFRAMESIZE =>
      if env.copy_from_user_fails then some ⟨s, -EFAULT, []⟩
      else some (setFrameSize env ctrl s)
    | Cmd.unknown _ => some ⟨s, -ENOTTY, []⟩

/-! ## Session life cycle -/

/-- The session as `piusb_probe` leaves it (lines 1102-1155): a zeroed
`device_extension` with the product id, the endpoints and the presence flag; the
file-level counters as `piusb_init` sets them. -/
def probeState (iama : Int) (hEP : List Nat) : State :=
  { present := true, iama := iama, hEP := hEP, frameSize := 0, num_frames := 0,
    active_frame := 0, frameIdx := 0, urbIdx := 0, gotPixelData := 0,
    pendingWrite := 0, bulk_in_byte_trk := 0, bulk_in_size_returned := 0,
    PixelUrb := none, sgEntries := none, pendedPixelUrbs := none, user_buffer := none,
    sgl := false, maplist_numPagesMapped := false, lastErr := 0, errCnt := 0 }

/-- The assignments of `piusb_open` (lines 1004-1017). -/
def piusb_open (s : State) : State :=
  { s with
    frameIdx := 0, urbIdx := 0, gotPixelData := 0, pendingWrite := 0, frameSize := 0,
    num_frames := 0, active_frame := 0, bulk_in_byte_trk := 0,
    pendedPixelUrbs := none, sgEntries := none, sgl := false,
    maplist_numPagesMapped := false, PixelUrb := none, bulk_in_size_returned := 0 }

/-- The assignment of `piusb_disconnect` (line 1191). -/
def piusb_disconnect (s : State) : State := { s with present := false }

/-- A freshly opened session on a device with product id `iama`. -/
def freshSession (iama : Int) (hEP : List Nat) : State := piusb_open (probeState iama hEP)

/-! ## The transport -/

/-- The write of `urb` into `pdx->PixelUrb[f][i]`. -/
def storeUrb (s : State) (f : Int) (i : Nat) (urb : Urb) : State :=
  { s with
    PixelUrb := s.PixelUrb.map fun rows =>
      match getAt rows f with
      | some (some row) => setAt rows f (some (row.set i (some urb)))
      | _ => rows }

/-- The USB core completes urb `i` of frame `f`: it stores the status and the number
of bytes received in the urb and then calls the urb's completion handler, which is
`piusb_read_pixel_callback` for every urb `MapUserBuffer` fills (line 609).  Nothing
happens when the frame holds no such urb. -/
def complete (s : State) (f : Int) (i : Nat) (status : Int) (actual : Nat) :
    Option State :=
  match (frameUrbs s f).getD i none with
  | none => some s
  | some urb =>
    let done : Urb := { urb with status := status, actual_length := actual }
    piusb_read_pixel_callback (storeUrb s f i done) done

/-! ## Observations used by the statements -/

/-- The requested lengths of the urbs frame `f` holds, in order. -/
def transferLengths (s : State) (f : Int) : List Nat :=
  (frameUrbs s f).map fun u => (u.getD freshUrb).transfer_buffer_length

/-- An environment in which every call of `MapUserBuffer` succeeds. -/
def armOk : ArmEnv :=
  { kzalloc_urbs := true, kzalloc_pended := true, usb_alloc_urb := fun _ => true,
    usb_alloc_coherent := fun _ => true, usb_submit_urb := fun _ => 0 }

/-- Every kernel call of `MapUserBuffer` succeeds. -/
def ArmEnv.allOk (env : ArmEnv) : Prop :=
  env.kzalloc_urbs = true ∧ env.kzalloc_pended = true ∧
    (∀ i, env.usb_alloc_urb i = true) ∧ (∀ i, env.usb_alloc_coherent i = true) ∧
    ∀ i, env.usb_submit_urb i = 0

/-- An environment in which every destination is writable and every resubmission of
`get_pixel_data` succeeds. -/
def drainOk : DrainEnv :=
  { access_ok := fun _ _ => true, usb_submit_urb := fun _ => 0 }

/-- An environment in which every kernel call of `piusb_ioctl` succeeds. -/
def ioctlOk : IoctlEnv :=
  { arg_access_err := false, copy_from_user_fails := false, devRB := 0,
    usb_control_msg := 0, high_speed := true, pData_access_ok := true,
    write_alloc := true, write_copy_fails := false, write_submit := 0,
    read_result := 0, kmalloc := fun _ => true, arm := armOk, drain := drainOk }

/-- Eight endpoint handles, as `piusb_probe` fills `hEP`. -/
def sampleEP : List Nat := [129, 1, 130, 132, 136, 2, 4, 8]

/-- A freshly opened session on the single-pipe device after
`PIUSB_SETFRAMESIZE` with `numbytes` bytes a frame and `numFrames` frames. -/
def configured (iama : Int) (numbytes : Nat) (numFrames : Int) : State :=
  (setFrameSize ioctlOk ⟨numbytes, 0, numFrames, 0⟩ (freshSession iama sampleEP)).state

/-- Successive calls of `get_pixel_data`, one per environment of the list, each on
the state the previous one left: the outcomes in order. -/
def drainMany (s : State) : List DrainEnv → Option (List Outcome)
  | [] => some []
  | e :: es =>
    (get_pixel_data e s).bind fun o => (drainMany o.state es).map fun os => o :: os

/-- Arm the frames `0 .. n-1` in turn, each with `numbytes` bytes and the user buffer
`pData i`; `none` when an arming traps or fails. -/
def armSlots (env : ArmEnv) (numbytes : Nat) (pData : Nat → Nat) (s : State) :
    Nat → Option State
  | 0 => some s
  | n + 1 =>
    (armSlots env numbytes pData s n).bind fun st =>
      (MapUserBuffer env ⟨numbytes, 0, Int.ofNat n, pData n⟩ st).bind fun o =>
        if o.retval = 0 then some o.state else none

/-- User buffer addresses for the frames of the sample sessions. -/
def sampleBuf (i : Nat) : Nat := 65536 * (i + 1)

/-- A session that has received a frame and was unmapped: `PIUSB_SETFRAMESIZE` (4096
bytes, 4 frames), all four frames armed, the urb of frame 0 completed with 4096
bytes, and `PIUSB_UNMAP_USERBUFFER`.  The state after the last call. -/
def unmappedAfterFrame : Option State :=
  (piusb_ioctl ioctlOk Cmd.PIUSB_SETFRAMESIZE ⟨4096, 0, 4, 0⟩
      (freshSession ST133_PID sampleEP)).bind fun o1 =>
  (armSlots armOk 4096 sampleBuf o1.state 4).bind fun s2 =>
  (complete s2 0 0 0 4096).bind fun s3 =>
  (piusb_ioctl ioctlOk Cmd.PIUSB_UNMAP_USERBUFFER ⟨0, 0, 0, 0⟩ s3).map fun o4 => o4.state

/-- Deliver, in order, the completions of the first `i` urbs of frame `f`, each with
status 0 and with as many bytes as the urb requested. -/
def completeChunks (s : State) (f : Int) : Nat → Option State
  | 0 => some s
  | i + 1 =>
    (completeChunks s f i).bind fun st =>
      complete st f i 0 ((transferLengths st f).getD i 0)

/-- Deliver the completions of `k` whole frames, frame after frame in ring order
(frame `j` of the run is slot `j % num_frames`), urb after urb. -/
def completeFrames (s : State) : Nat → Option State
  | 0 => some s
  | k + 1 =>
    (completeFrames s k).bind fun st =>
      completeChunks st (Int.ofNat k % st.num_frames)
        (frameUrbs st (Int.ofNat k % st.num_frames)).length

/-- Whether the completion of urb `i` of frame `f` with status 0 and the requested
number of bytes asserts readiness: delivered with the ready flag cleared, it leaves
the flag set. -/
def assertsReady (s : State) (f : Int) (i : Nat) : Bool :=
  match complete { s with gotPixelData := 0 } f i 0 ((transferLengths s f).getD i 0) with
  | some st => decide (st.gotPixelData = 1)
  | none => false

/-- The requested length of an entry of `PixelUrb[f]`. -/
def requested (u : Option Urb) : Option Nat := u.map Urb.transfer_buffer_length

/-- Every frame `0 ≤ f < N` holds urbs with the requested lengths `L`. -/
def SlotsArmed (s : State) (N : Int) (L : List Nat) : Prop :=
  ∀ f : Int, 0 ≤ f → f < N → (frameUrbs s f).map requested = L.map some

/-- The accounting state of a ring whose frames are armed with the lengths `L`: frame
size `fs`, `N` frames, `t` bytes counted and active index `fi`. -/
def Accounting (s : State) (fs : Nat) (N : Int) (L : List Nat) (t : Nat) (fi : Int) :
    Prop :=
  s.frameSize = fs ∧ s.num_frames = N ∧ SlotsArmed s N L ∧ s.bulk_in_byte_trk = t ∧
    s.frameIdx = fi

/-- A session whose ring of four 4096 byte frames is armed. -/
def armedRing : State :=
  (armSlots armOk 4096 sampleBuf (configured ST133_PID 4096 4) 4).getD
    (configured ST133_PID 4096 4)

/-- The ping-pong device with an odd frame count: `PIUSB_SETFRAMESIZE` (4096 bytes,
3 frames) and all three frames armed. -/
def pixisRing3 : Option State :=
  armSlots armOk 4096 sampleBuf (configured PIXIS_PID 4096 3) 3

/-- The endpoint of every entry of `PixelUrb[f]`. -/
def framePipes (s : State) (f : Int) : List (Option Nat) :=
  (frameUrbs s f).map fun u => u.map Urb.pipe

/-- Some kernel call that `MapUserBuffer` makes for a frame of `n` urbs fails: one of
the two `kzalloc` calls, an allocation for an urb `i < n`, or the submission of an
urb `i < n`. -/
def ArmEnv.fails (env : ArmEnv) (n : Nat) : Prop :=
  env.kzalloc_urbs = false ∨ env.kzalloc_pended = false ∨
    (∃ i, i < n ∧ (env.usb_alloc_urb i = false ∨ env.usb_alloc_coherent i = false)) ∨
    ∃ i, i < n ∧ env.usb_submit_urb i ≠ 0

/-- An environment in which the submission of urb 2 fails with `-ENOMEM` and every
other call succeeds. -/
def armFailsAt2 : ArmEnv :=
  { armOk with usb_submit_urb := fun i => if i = 2 then -ENOMEM else 0 }

/-- A ring of two frames of 250000 bytes with frame 0 armed. -/
def halfArmed : State :=
  (armSlots armOk 250000 sampleBuf (configured ST133_PID 250000 2) 1).getD
    (configured ST133_PID 250000 2)

/-- The outcome of arming frame 1 of `halfArmed` with 250000 bytes when the
submission of the third urb fails. -/
def failedArm : Outcome :=
  (MapUserBuffer armFailsAt2 ⟨250000, 0, 1, 131072⟩ halfArmed).getD ⟨halfArmed, 0, []⟩

/-- The actual length of urb `i` of the consumer frame, as line 674 reads it. -/
def chunkLen (s : State) (i : Nat) : Nat :=
  (((frameUrbs s s.active_frame).getD i none).getD freshUrb).actual_length

/-- The destination of urb `i` of the consumer frame: the user buffer of the frame
advanced by the actual lengths of the urbs before it (lines 650 and 682). -/
def chunkDest (s : State) : Nat → Nat
  | 0 => userBufferAt s s.active_frame
  | i + 1 => chunkDest s i + chunkLen s i

/-- The outside calls of one pass of the loop of `get_pixel_data`, for urb `i`. -/
def chunkEvents (s : State) (i : Nat) : List Event :=
  [Event.copy_to_user (chunkDest s i) i (chunkLen s i), Event.submit s.active_frame i]

/-- The outside calls of the first `n` passes of the loop of `get_pixel_data`. -/
def drainEvents (s : State) (n : Nat) : List Event :=
  (List.range n).flatMap (chunkEvents s)

/-- Whether the resubmission of urb `i` counts as a failure (line 686). -/
def countedFailure (env : DrainEnv) (i : Nat) : Bool :=
  decide (env.usb_submit_urb i ≠ 0 ∧ env.usb_submit_urb i ≠ -EPERM)

/-- The number of urbs `i < n` whose resubmission fails with a code other than
`-EPERM`. -/
def resubmitFailures (env : DrainEnv) (n : Nat) : Nat :=
  ((List.range n).filter (countedFailure env)).length

/-- The destinations of the first `n` urbs of the consumer frame pass `access_ok`. -/
def Writable (env : DrainEnv) (s : State) (n : Nat) : Prop :=
  ∀ i, i < n → env.access_ok (chunkDest s i) (chunkLen s i) = true

/-- An environment in which the access check on the argument of `piusb_ioctl` fails
(lines 776-784). -/
def ioctlBadArg : IoctlEnv := { ioctlOk with arg_access_err := true }

/-- An environment in which `copy_from_user` fails on the argument of `piusb_ioctl`. -/
def ioctlBadCopy : IoctlEnv := { ioctlOk with copy_from_user_fails := true }

/-- The steps of a session after `piusb_open`: `PIUSB_SETFRAMESIZE`, `MapUserBuffer`,
the completion of an urb, `get_pixel_data` and `UnMapUserBuffer`, each with the answers
of the kernel it gets. -/
inductive Op where
  | configure (env : IoctlEnv) (numbytes : Nat) (numFrames : Int)
  | arm (env : ArmEnv) (io : ioctl_struct)
  | completion (f : Int) (i : Nat) (status : Int) (actual : Nat)
  | drain (env : DrainEnv)
  | unmap

/-- A configuration step asks for a positive frame count. -/
def Op.positive : Op → Prop
  | Op.configure _ _ numFrames => 0 < numFrames
  | _ => True

/-- The state after one step; `none` when the step traps. -/
def step (s : State) : Op → Option State
  | Op.configure env numbytes numFrames =>
    some (setFrameSize env ⟨numbytes, 0, numFrames, 0⟩ s).state
  | Op.arm env io => (MapUserBuffer env io s).map fun o => o.state
  | Op.completion f i status actual => complete s f i status actual
  | Op.drain env => (get_pixel_data env s).map fun o => o.state
  | Op.unmap => some (UnMapUserBuffer s).state

/-- The state after a sequence of steps. -/
def run (s : State) : List Op → Option State
  | [] => some s
  | op :: ops => (step s op).bind fun s1 => run s1 ops

/-- A ring of four 4096 byte frames is configured and armed, three frames complete,
the ring is unmapped, and a ring of two frames is configured. -/
def shrinkRing : List Op :=
  [Op.configure ioctlOk 4096 4,
    Op.arm armOk ⟨4096, 0, 0, 65536⟩, Op.arm armOk ⟨4096, 0, 1, 131072⟩,
    Op.arm armOk ⟨4096, 0, 2, 196608⟩, Op.arm armOk ⟨4096, 0, 3, 262144⟩,
    Op.completion 0 0 0 4096, Op.completion 1 0 0 4096, Op.completion 2 0 0 4096,
    Op.unmap,
    Op.configure ioctlOk 4096 2]

/-! # Theorems -/

/-! ## Machine integers: conversions that keep the value -/

theorem toInt32_of_lt {n : Int} (h0 : 0 ≤ n) (h : n < 2147483648) : toInt32 n = n := by
  unfold toInt32; omega

theorem toUInt32_of_lt {n : Int} (h0 : 0 ≤ n) (h : n < 4294967296) :
    toUInt32 n = n.toNat := by
  unfold toUInt32; rw [Int.emod_eq_of_lt h0 h]

theorem toULong_of_lt {n : Int} (h0 : 0 ≤ n) (h : n < 18446744073709551616) :
    toULong n = n.toNat := by
  unfold toULong; rw [Int.emod_eq_of_lt h0 h]

/-! ## Chunking of a frame that fits an `int` -/

theorem buf_size_small {nb : Nat} (h : nb < 2147483648) :
    buf_size nb = min nb 102400 := by
  unfold buf_size MAX_BUFFER_SIZE
  simp only [Int.ofNat_eq_coe]
  rw [toInt32_of_lt (by omega) (by omega), toUInt32_of_lt (by omega) (by omega)]
  omega

theorem size_last_small {nb : Nat} (h : nb < 2147483648) :
    size_last nb = nb % min nb 102400 := by
  unfold size_last
  simp only [Int.ofNat_eq_coe]
  rw [buf_size_small h, toULong_of_lt (by omega) (by omega), Int.toNat_ofNat]
  have hle : nb % min nb 102400 ≤ nb := Nat.mod_le _ _
  rw [toUInt32_of_lt (by omega) (by omega), Int.toNat_ofNat]

theorem div_add_mod_le (nb m : Nat) : nb / m + nb % m ≤ nb := by
  rcases Nat.eq_zero_or_pos m with hm | hm
  · simp [hm]
  · have h1 := Nat.div_add_mod nb m
    have h2 : nb / m ≤ m * (nb / m) := Nat.le_mul_of_pos_left _ hm
    omega

theorem numurb_small {nb : Nat} (h : nb < 2147483648) :
    numurb nb =
      Int.ofNat (nb / min nb 102400 + if nb % min nb 102400 = 0 then 0 else 1) := by
  unfold numurb
  simp only [Int.ofNat_eq_coe]
  rw [size_last_small h, buf_size_small h, toULong_of_lt (by omega) (by omega),
    Int.toNat_ofNat]
  have hle : nb / min nb 102400 + nb % min nb 102400 ≤ nb := div_add_mod_le _ _
  generalize nb / min nb 102400 = q at *
  generalize nb % min nb 102400 = r at *
  have hq : toInt32 (q : Int) = (q : Int) := toInt32_of_lt (by omega) (by omega)
  rw [hq]
  by_cases hr : r = 0
  · simp [hr]
  · have hq1 : toInt32 ((q : Int) + 1) = (q : Int) + 1 :=
      toInt32_of_lt (by omega) (by omega)
    simp only [hr, ne_eq, not_false_eq_true, if_true, if_false]
    rw [hq1]
    push_cast
    rfl

theorem urbSize_small {nb : Nat} (h : nb < 2147483648) (i : Nat) :
    urbSize nb i =
      if nb % min nb 102400 ≠ 0 ∧ i = nb / min nb 102400 then nb % min nb 102400
      else min nb 102400 := by
  unfold urbSize
  rw [size_last_small h, buf_size_small h, numurb_small h]
  simp only [Int.ofNat_eq_coe]
  have hle : nb % min nb 102400 ≤ nb := Nat.mod_le _ _
  generalize nb / min nb 102400 = q at *
  generalize nb % min nb 102400 = r at *
  have hb : toUInt32 (toInt32 ((min nb 102400 : Nat) : Int)) = min nb 102400 := by
    rw [toInt32_of_lt (by omega) (by omega), toUInt32_of_lt (by omega) (by omega),
      Int.toNat_ofNat]
  have hrr : toUInt32 (toInt32 (r : Int)) = r := by
    rw [toInt32_of_lt (by omega) (by omega), toUInt32_of_lt (by omega) (by omega),
      Int.toNat_ofNat]
  by_cases hr : r = 0
  · simp only [hr, ne_eq, not_true_eq_false, false_and, if_false]
    exact hb
  · by_cases hi : i = q
    · have h1 : (i : Int) = ((q + if r = 0 then 0 else 1 : Nat) : Int) - 1 := by
        rw [if_neg hr, hi]; push_cast; omega
      rw [if_pos ⟨hr, h1⟩, if_pos ⟨hr, hi⟩]
      exact hrr
    · have h1 : ¬ ((i : Int) = ((q + if r = 0 then 0 else 1 : Nat) : Int) - 1) := by
        rw [if_neg hr]; push_cast; omega
      rw [if_neg (fun hh => h1 hh.2), if_neg (fun hh => hi hh.2)]
      exact hb

/-- The chunk lengths of a frame of `nb` bytes, `nb < 2^31`: `nb / b` chunks of
`b = min nb 102400` bytes and then the remainder, when there is one. -/
theorem chunkList_small {nb : Nat} (h : nb < 2147483648) :
    (List.range (numurb nb).toNat).map (urbSize nb) =
      List.replicate (nb / min nb 102400) (min nb 102400) ++
        (if nb % min nb 102400 = 0 then [] else [nb % min nb 102400]) := by
  rw [numurb_small h]
  simp only [Int.ofNat_eq_coe, Int.toNat_ofNat]
  by_cases hr : nb % min nb 102400 = 0
  · simp only [hr, if_true, Nat.add_zero, List.append_nil]
    apply List.ext_getElem
    · simp
    · intro i h1 h2
      simp only [List.getElem_map, List.getElem_range, List.getElem_replicate]
      rw [urbSize_small h]
      simp [hr]
  · simp only [hr, if_false]
    rw [List.range_succ, List.map_append]
    congr 1
    · apply List.ext_getElem
      · simp
      · intro i h1 h2
        simp only [List.getElem_map, List.getElem_range, List.getElem_replicate]
        rw [urbSize_small h]
        have : i < nb / min nb 102400 := by simpa using h1
        rw [if_neg (fun hh => by omega)]
    · simp only [List.map_cons, List.map_nil]
      rw [urbSize_small h]
      simp [hr]

/-! ## Arming -/

/-- The urb that the allocation loop stores for chunk `j`. -/
theorem allocLoop_true (env : ArmEnv) (ep nb : Nat) :
    ∀ (k i : Nat) (acc urbs : List (Option Urb)),
      allocLoop env ep nb k i acc = (true, urbs) →
      urbs = acc ++ (List.range' i k).map fun j =>
        some { freshUrb with pipe := ep, transfer_buffer_length := urbSize nb j } := by
  intro k
  induction k with
  | zero =>
    intro i acc urbs h
    simp only [allocLoop, Prod.mk.injEq, true_and] at h
    simp [h]
  | succ k ih =>
    intro i acc urbs h
    unfold allocLoop at h
    by_cases h1 : env.usb_alloc_urb i = true
    · by_cases h2 : env.usb_alloc_coherent i = true
      · simp only [h1, h2, Bool.not_true, Bool.false_eq_true, if_false] at h
        rw [ih _ _ _ h]
        simp [List.range'_succ]
      · simp [h1, h2] at h
    · simp [h1] at h

theorem allocLoop_ok (env : ArmEnv) (ep nb : Nat)
    (h1 : ∀ j, env.usb_alloc_urb j = true) (h2 : ∀ j, env.usb_alloc_coherent j = true) :
    ∀ (k i : Nat) (acc : List (Option Urb)),
      (allocLoop env ep nb k i acc).1 = true := by
  intro k
  induction k with
  | zero => intro i acc; rfl
  | succ k ih =>
    intro i acc
    unfold allocLoop
    simp only [h1, h2, Bool.not_true, Bool.false_eq_true, if_false]
    exact ih _ _

theorem submitLoop_ok (env : ArmEnv) (f : Int) (h : ∀ j, env.usb_submit_urb j = 0) :
    ∀ (k i : Nat) (pend : List Nat) (tr : List Event),
      (submitLoop env f k i pend tr).1 = 0 := by
  intro k
  induction k with
  | zero => intro i pend tr; rfl
  | succ k ih =>
    intro i pend tr
    unfold submitLoop
    simp only [h, ne_eq, not_true_eq_false, if_false]
    exact ih _ _ _

/-- A successful `MapUserBuffer` stores one urb per chunk in the frame and leaves the
accounting fields alone. -/
theorem MapUserBuffer_armed {env : ArmEnv} {io : ioctl_struct} {s : State} {o : Outcome}
    (h : MapUserBuffer env io s = some o) (h0 : o.retval = 0) :
    ∃ rows, s.PixelUrb = some rows ∧ buf_size io.numbytes ≠ 0 ∧
      o.state.PixelUrb = some (setAt rows io.numFrames (some
        ((List.range (numurb io.numbytes).toNat).map fun j =>
          some { freshUrb with
            pipe := epAddr s io.numFrames
            transfer_buffer_length := urbSize io.numbytes j }))) := by
  unfold MapUserBuffer at h
  cases hp : s.PixelUrb with
  | none =>
    simp only [hp, Option.some.injEq] at h
    subst h
    simp [EINVAL] at h0
  | some rows =>
    refine ⟨rows, rfl, ?_⟩
    simp only [hp] at h
    by_cases hb : buf_size io.numbytes = 0
    · simp [hb] at h
    · refine ⟨hb, ?_⟩
      simp only [hb, if_false] at h
      by_cases hk1 : env.kzalloc_urbs = true
      · by_cases hk2 : env.kzalloc_pended = true
        · simp only [hk1, hk2, Bool.not_true, Bool.false_eq_true, if_false] at h
          rcases ha : allocLoop env (epAddr s io.numFrames) io.numbytes
              (numurb io.numbytes).toNat 0 [] with ⟨b, urbs⟩
          rw [ha] at h
          cases b with
          | false =>
            simp only [Option.some.injEq] at h
            subst h
            simp [ENOMEM] at h0
          | true =>
            have hu := allocLoop_true _ _ _ _ _ _ _ ha
            simp only at h
            rcases hs : submitLoop env io.numFrames (numurb io.numbytes).toNat 0
                (List.replicate (numurb io.numbytes).toNat 0) [] with ⟨rv, pend, tr⟩
            rw [hs] at h
            simp only at h
            by_cases hrv : rv = 0
            · simp only [hrv, ne_eq, not_true_eq_false, if_false, Option.some.injEq] at h
              subst h
              simp only [hu, List.nil_append, List.range_eq_range']
            · simp only [hrv, ne_eq, not_false_eq_true, if_true, Option.some.injEq] at h
              subst h
              exact absurd h0 hrv
        · simp only [hk1, hk2, Bool.not_true, Bool.false_eq_true, if_false, if_true,
            Bool.not_false, Option.some.injEq] at h
          subst h
          simp [ENOMEM] at h0
      · simp only [hk1, Bool.not_false, if_true, Option.some.injEq] at h
        subst h
        simp [ENOMEM] at h0

theorem getAt_setAt_self {α : Type} (a : List α) (i : Int) (v : α)
    (h0 : 0 ≤ i) (h1 : i < a.length) : getAt (setAt a i v) i = some v := by
  have : i.toNat < a.length := by omega
  simp [getAt, setAt, h0, this]

theorem MapUserBuffer_total (env : ArmEnv) (io : ioctl_struct) (s : State)
    (hb : buf_size io.numbytes ≠ 0) : ∃ o, MapUserBuffer env io s = some o := by
  unfold MapUserBuffer
  cases s.PixelUrb with
  | none => exact ⟨_, rfl⟩
  | some rows =>
    simp only [hb, if_false]
    repeat (first | exact ⟨_, rfl⟩ | split)

theorem MapUserBuffer_succeeds (env : ArmEnv) (io : ioctl_struct) (s : State)
    (rows : List (Option (List (Option Urb)))) (hring : s.PixelUrb = some rows)
    (hb : buf_size io.numbytes ≠ 0) (henv : env.allOk) :
    ∃ o, MapUserBuffer env io s = some o ∧ o.retval = 0 := by
  obtain ⟨hk1, hk2, ha1, ha2, hs⟩ := henv
  unfold MapUserBuffer
  simp only [hring, hb, if_false, hk1, hk2, Bool.not_true, Bool.false_eq_true]
  have h1 := allocLoop_ok env (epAddr s io.numFrames) io.numbytes ha1 ha2
    (numurb io.numbytes).toNat 0 []
  rcases ha : allocLoop env (epAddr s io.numFrames) io.numbytes
      (numurb io.numbytes).toNat 0 [] with ⟨b, urbs⟩
  rw [ha] at h1
  simp only at h1
  subst h1
  have h2 := submitLoop_ok env io.numFrames hs (numurb io.numbytes).toNat 0
    (List.replicate (numurb io.numbytes).toNat 0) []
  rcases hsl : submitLoop env io.numFrames (numurb io.numbytes).toNat 0
      (List.replicate (numurb io.numbytes).toNat 0) [] with ⟨rv, pend, tr⟩
  rw [hsl] at h2
  simp only at h2
  subst h2
  exact ⟨_, rfl, rfl⟩

/-- The requested lengths of the urbs of a frame that was armed with success. -/
theorem transferLengths_armed {env : ArmEnv} {io : ioctl_struct} {s : State} {o : Outcome}
    {rows : List (Option (List (Option Urb)))} (hring : s.PixelUrb = some rows)
    (h0 : 0 ≤ io.numFrames) (h1 : io.numFrames < rows.length)
    (h : MapUserBuffer env io s = some o) (hr : o.retval = 0) :
    transferLengths o.state io.numFrames =
      (List.range (numurb io.numbytes).toNat).map (urbSize io.numbytes) := by
  obtain ⟨rows2, hr2, _, hst⟩ := MapUserBuffer_armed h hr
  rw [hring] at hr2
  cases hr2
  unfold transferLengths frameUrbs
  rw [hst]
  simp only [Option.getD_some, getAt_setAt_self _ _ _ h0 h1, List.map_map]
  apply List.map_congr_left
  intro j _
  rfl

/-- C1 (amended): for a frame size that a C `int` holds, `0 < numbytes < 2^31`, and a
slot of the configured ring, `MapUserBuffer` does not trap, arms the slot when every
kernel call succeeds, and whenever it arms the slot the requested lengths of the
slot's urbs sum to `numbytes`, none exceeds `MAX_BUFFER_SIZE`, and every urb but the
last has exactly `MAX_BUFFER_SIZE` bytes; 250000 bytes give the three chunks
102400, 102400, 45200. -/
theorem C1_arm_chunk_lengths (env : ArmEnv) (io : ioctl_struct) (s : State)
    (rows : List (Option (List (Option Urb)))) (hring : s.PixelUrb = some rows)
    (hslot : 0 ≤ io.numFrames ∧ io.numFrames < rows.length)
    (hpos : 0 < io.numbytes) (hint : io.numbytes < 2147483648) :
    (∃ o, MapUserBuffer env io s = some o) ∧
    (env.allOk → ∃ o, MapUserBuffer env io s = some o ∧ o.retval = 0) ∧
    ∀ o, MapUserBuffer env io s = some o → o.retval = 0 →
      (transferLengths o.state io.numFrames).sum = io.numbytes ∧
      (∀ x ∈ transferLengths o.state io.numFrames, Int.ofNat x ≤ MAX_BUFFER_SIZE) ∧
      (∀ i, i + 1 < (transferLengths o.state io.numFrames).length →
        Int.ofNat ((transferLengths o.state io.numFrames).getD i 0) = MAX_BUFFER_SIZE) ∧
      (io.numbytes = 250000 →
        transferLengths o.state io.numFrames = [102400, 102400, 45200]) := by
  have hb : buf_size io.numbytes ≠ 0 := by
    rw [buf_size_small hint]; omega
  refine ⟨MapUserBuffer_total env io s hb,
    fun henv => MapUserBuffer_succeeds env io s rows hring hb henv, ?_⟩
  intro o h hr
  rw [transferLengths_armed hring hslot.1 hslot.2 h hr, chunkList_small hint]
  have hdm := Nat.div_add_mod io.numbytes (min io.numbytes 102400)
  have hml : io.numbytes % min io.numbytes 102400 < min io.numbytes 102400 :=
    Nat.mod_lt _ (by omega)
  refine ⟨?_, ?_, ?_, ?_⟩
  · rw [List.sum_append, List.sum_replicate]
    by_cases hz : io.numbytes % min io.numbytes 102400 = 0
    · simp only [hz, if_true, List.sum_nil, smul_eq_mul]
      rw [hz] at hdm
      rw [Nat.mul_comm]; omega
    · simp only [hz, if_false, List.sum_cons, List.sum_nil, smul_eq_mul]
      rw [Nat.mul_comm]; omega
  · intro x hx
    simp only [MAX_BUFFER_SIZE, Int.ofNat_eq_coe]
    rcases List.mem_append.1 hx with hx | hx
    · have := (List.mem_replicate.1 hx).2
      omega
    · by_cases hz : io.numbytes % min io.numbytes 102400 = 0
      · simp [hz] at hx
      · simp only [hz, if_false, List.mem_singleton] at hx
        omega
  · intro i hi
    simp only [MAX_BUFFER_SIZE, Int.ofNat_eq_coe]
    by_cases hz : io.numbytes % min io.numbytes 102400 = 0
    · simp only [hz, if_true, List.append_nil, List.length_replicate] at hi ⊢
      have hlarge : 102400 ≤ io.numbytes := by
        by_contra hc
        have hm : min io.numbytes 102400 = io.numbytes := by omega
        rw [hm, Nat.div_self hpos] at hi
        omega
      have hm : min io.numbytes 102400 = 102400 := by omega
      rw [hm] at hi ⊢
      rw [List.getD_eq_getElem?_getD, List.getElem?_replicate]
      simp [show i < io.numbytes / 102400 by omega]
    · simp only [hz, if_false, List.length_append, List.length_replicate,
        List.length_singleton] at hi ⊢
      have hlarge : 102400 ≤ io.numbytes := by
        by_contra hc
        have hm : min io.numbytes 102400 = io.numbytes := by omega
        rw [hm, Nat.mod_self] at hz
        exact hz rfl
      have hm : min io.numbytes 102400 = 102400 := by omega
      rw [hm] at hi ⊢
      have hi2 : i < io.numbytes / 102400 := by omega
      rw [List.getD_eq_getElem?_getD, List.getElem?_append_left (by simpa using hi2),
        List.getElem?_replicate]
      simp [hi2]
  · intro h25
    rw [h25]
    decide

/-- The witness of C1: frame 0 of a ring of two frames armed with 250000 bytes. -/
theorem C1_arm_chunk_lengths_witness :
    (∃ o, MapUserBuffer armOk ⟨250000, 0, 0, 4096⟩ (configured ST133_PID 250000 2) =
      some o) ∧
    (armOk.allOk → ∃ o,
      MapUserBuffer armOk ⟨250000, 0, 0, 4096⟩ (configured ST133_PID 250000 2) = some o ∧
        o.retval = 0) ∧
    ∀ o, MapUserBuffer armOk ⟨250000, 0, 0, 4096⟩ (configured ST133_PID 250000 2) =
        some o → o.retval = 0 →
      (transferLengths o.state 0).sum = 250000 ∧
      (∀ x ∈ transferLengths o.state 0, Int.ofNat x ≤ MAX_BUFFER_SIZE) ∧
      (∀ i, i + 1 < (transferLengths o.state 0).length →
        Int.ofNat ((transferLengths o.state 0).getD i 0) = MAX_BUFFER_SIZE) ∧
      ((250000 : Nat) = 250000 → transferLengths o.state 0 = [102400, 102400, 45200]) :=
  C1_arm_chunk_lengths armOk ⟨250000, 0, 0, 4096⟩ (configured ST133_PID 250000 2)
    [none, none] (by decide) (by decide) (by decide) (by decide)

/-- C1 as stated fails: a ring configured with `frame_size = 2^32 + 1 > 0` whose slot
0 is armed with that byte count gets a single urb of 1 byte, so the lengths do not
sum to the frame size. -/
theorem C1_counterexample :
    (configured ST133_PID 4294967297 2).frameSize = 4294967297 ∧
    (MapUserBuffer armOk ⟨4294967297, 0, 0, 4096⟩ (configured ST133_PID 4294967297 2)).map
      (fun o => (o.retval, transferLengths o.state 0)) = some (0, [1]) ∧
    ([1] : List Nat).sum ≠ 4294967297 := by
  decide

/-! ## The completion handler -/

theorem isHardError_zero : isHardError 0 = false := by decide

/-- A successful completion that does not fill the frame only adds to the byte counter
and steps the urb index. -/
theorem callback_below (s : State) (urb : Urb) (hst : urb.status = 0)
    (hlt : s.bulk_in_byte_trk + urb.actual_length < s.frameSize) :
    piusb_read_pixel_callback s urb =
      some { s with
        bulk_in_byte_trk := s.bulk_in_byte_trk + urb.actual_length
        urbIdx := s.urbIdx + 1 } := by
  unfold piusb_read_pixel_callback
  rw [hst, isHardError_zero]
  simp only [Bool.false_eq_true, if_false]
  rw [if_neg (by omega)]

/-- A successful completion that fills the frame marks it ready and steps the ring. -/
theorem callback_reach (s : State) (urb : Urb) (hst : urb.status = 0)
    (hN : s.num_frames ≠ 0)
    (hge : s.frameSize ≤ s.bulk_in_byte_trk + urb.actual_length) :
    piusb_read_pixel_callback s urb =
      some { s with
        bulk_in_size_returned := Int.ofNat (s.bulk_in_byte_trk + urb.actual_length)
        bulk_in_byte_trk := 0
        gotPixelData := 1
        frameIdx := Int.tmod (s.frameIdx + 1) s.num_frames
        urbIdx := 0 } := by
  unfold piusb_read_pixel_callback
  rw [hst, isHardError_zero]
  simp only [Bool.false_eq_true, if_false]
  rw [if_pos hge, if_neg hN]
  rfl

/-- C2: on a ring with `N > 0` slots a completion with status 0 adds the urb's actual
length to the cumulative byte counter.  While the new total is below `frameSize` only
the byte counter and the urb index change (the ready flag `gotPixelData` and the
active index `frameIdx` keep their values).  When the new total reaches `frameSize`
the ready flag is set to 1, the byte counter is reset to 0 and the active index
becomes `(frameIdx + 1) % num_frames`, which for an index that is not negative is
the remainder in `0 .. N-1`. -/
theorem C2_success_completion (s : State) (urb : Urb) (hst : urb.status = 0)
    (hN : 0 < s.num_frames) :
    (s.bulk_in_byte_trk + urb.actual_length < s.frameSize →
      piusb_read_pixel_callback s urb =
        some { s with
          bulk_in_byte_trk := s.bulk_in_byte_trk + urb.actual_length
          urbIdx := s.urbIdx + 1 }) ∧
    (s.frameSize ≤ s.bulk_in_byte_trk + urb.actual_length →
      piusb_read_pixel_callback s urb =
        some { s with
          bulk_in_size_returned := Int.ofNat (s.bulk_in_byte_trk + urb.actual_length)
          bulk_in_byte_trk := 0
          gotPixelData := 1
          frameIdx := Int.tmod (s.frameIdx + 1) s.num_frames
          urbIdx := 0 }) ∧
    (0 ≤ s.frameIdx →
      Int.tmod (s.frameIdx + 1) s.num_frames = (s.frameIdx + 1) % s.num_frames) :=
  ⟨callback_below s urb hst, callback_reach s urb hst (by omega),
    fun h => Int.tmod_eq_emod (by omega) (by omega)⟩

/-- The witness of C2: a 4096 byte completion on a ring of four 4096 byte frames. -/
theorem C2_success_completion_witness :
    (0 + 4096 < (configured ST133_PID 4096 4).frameSize →
      piusb_read_pixel_callback (configured ST133_PID 4096 4) ⟨129, 4096, 4096, 0⟩ =
        some { configured ST133_PID 4096 4 with
          bulk_in_byte_trk := 0 + 4096, urbIdx := 0 + 1 }) ∧
    ((configured ST133_PID 4096 4).frameSize ≤ 0 + 4096 →
      piusb_read_pixel_callback (configured ST133_PID 4096 4) ⟨129, 4096, 4096, 0⟩ =
        some { configured ST133_PID 4096 4 with
          bulk_in_size_returned := Int.ofNat (0 + 4096)
          bulk_in_byte_trk := 0
          gotPixelData := 1
          frameIdx := Int.tmod (0 + 1) 4
          urbIdx := 0 }) ∧
    ((0 : Int) ≤ 0 → Int.tmod (0 + 1) 4 = (0 + 1) % 4) :=
  C2_success_completion (configured ST133_PID 4096 4) ⟨129, 4096, 4096, 0⟩ rfl
    (by decide)

theorem get_pixel_data_no_ring (env : DrainEnv) (s : State) (h : ringExists s = false) :
    get_pixel_data env s = none := by
  unfold get_pixel_data
  rw [if_pos (by simp [h])]

theorem get_pixel_data_not_ready (env : DrainEnv) (s : State) (hring : ringExists s = true)
    (h : s.gotPixelData = 0) :
    get_pixel_data env s = some ⟨s, 0, []⟩ := by
  unfold get_pixel_data
  rw [if_neg (by simp [hring]), if_pos h]

theorem drainMany_not_ready (s : State) (hring : ringExists s = true)
    (h : s.gotPixelData = 0) :
    ∀ envs : List DrainEnv,
      drainMany s envs = some (List.replicate envs.length ⟨s, 0, []⟩) := by
  intro envs
  induction envs with
  | nil => rfl
  | cons e es ih =>
    simp only [drainMany, get_pixel_data_not_ready e s hring h, Option.some_bind, ih,
      Option.map_some', List.length_cons, List.replicate_succ]

/-- C6: on a session whose ring exists (`PixelUrb` and `user_buffer` are allocated),
when no frame is ready and no error is recorded (`gotPixelData = 0`),
`get_pixel_data` returns 0, makes no copy and no submission (its trace is empty) and
leaves the session state as it was; hence any number of calls in a row return 0 and
leave the state as it was, as three calls on a configured ring do.  Without a ring the
call does not return: lines 649-650 load through the `NULL` pointers `PixelUrb` and
`user_buffer` before the flag is tested.  A freshly opened session is such a state
(no frame ready, no error recorded), and `PIUSB_READPIPE` on selector 0 reaches the
loads there. -/
theorem C6_not_ready_drain :
    (∀ (env : DrainEnv) (envs : List DrainEnv) (s : State),
      ringExists s = true → s.gotPixelData = 0 →
        get_pixel_data env s = some ⟨s, 0, []⟩ ∧
        drainMany s envs = some (List.replicate envs.length ⟨s, 0, []⟩)) ∧
    (ringExists (configured ST133_PID 4096 4) = true ∧
      (configured ST133_PID 4096 4).gotPixelData = 0 ∧
      drainMany (configured ST133_PID 4096 4) [drainOk, drainOk, drainOk] =
        some (List.replicate 3 ⟨configured ST133_PID 4096 4, 0, []⟩)) ∧
    (∀ (env : DrainEnv) (s : State), ringExists s = false → get_pixel_data env s = none) ∧
    ((freshSession ST133_PID sampleEP).present = true ∧
      (freshSession ST133_PID sampleEP).gotPixelData = 0 ∧
      (freshSession ST133_PID sampleEP).PixelUrb = none ∧
      (freshSession ST133_PID sampleEP).user_buffer = none ∧
      get_pixel_data drainOk (freshSession ST133_PID sampleEP) = none ∧
      piusb_ioctl ioctlOk Cmd.PIUSB_READPIPE ⟨0, 0, 0, 0⟩
        (freshSession ST133_PID sampleEP) = none) := by
  refine ⟨fun env envs s hring h =>
      ⟨get_pixel_data_not_ready env s hring h, drainMany_not_ready s hring h envs⟩,
    ⟨by decide, by decide, ?_⟩, get_pixel_data_no_ring, by decide⟩
  exact drainMany_not_ready _ (by decide) (by decide) [drainOk, drainOk, drainOk]

/-! ## Configuration -/

/-- C8: while a ring exists (`PixelUrb` is not `NULL`), `PIUSB_SETFRAMESIZE` with any
frame size and frame count returns a negative error code, makes no outside call and
leaves the session state as it was. -/
theorem C8_reconfigure_rejected (env : IoctlEnv) (ctrl : ioctl_struct) (s : State)
    (hring : s.PixelUrb.isSome = true) :
    ∃ r, r < 0 ∧ piusb_ioctl env Cmd.PIUSB_SETFRAMESIZE ctrl s = some ⟨s, r, []⟩ := by
  unfold piusb_ioctl
  by_cases hp : s.present = true
  · by_cases ha : env.arg_access_err = true
    · exact ⟨-EFAULT, by decide, by simp [hp, ha]⟩
    · by_cases hc : env.copy_from_user_fails = true
      · exact ⟨-EFAULT, by decide, by simp [hp, ha, hc]⟩
      · exact ⟨-EINVAL, by decide, by simp [hp, ha, hc, setFrameSize, hring]⟩
  · exact ⟨-ENODEV, by decide, by simp [hp]⟩

/-- The witness of C8: a second configuration of a ring of four frames. -/
theorem C8_reconfigure_rejected_witness :
    ∃ r, r < 0 ∧
      piusb_ioctl ioctlOk Cmd.PIUSB_SETFRAMESIZE ⟨8192, 0, 2, 0⟩
        (configured ST133_PID 4096 4) = some ⟨configured ST133_PID 4096 4, r, []⟩ :=
  C8_reconfigure_rejected ioctlOk ⟨8192, 0, 2, 0⟩ (configured ST133_PID 4096 4)
    (by decide)

/-- C9 (amended): on a present device with no ring, `PIUSB_SETFRAMESIZE` with a frame
count that is zero or negative is not rejected: it returns 0 and records the frame
size and the frame count of the request and sets the consumer index to 0; no frame
slot is allocated, and with a negative count no ring comes to exist. -/
theorem C9_nonpositive_count_accepted (env : IoctlEnv) (ctrl : ioctl_struct) (s : State)
    (hp : s.present = true) (ha : env.arg_access_err = false)
    (hc : env.copy_from_user_fails = false) (hring : s.PixelUrb = none)
    (hn : ctrl.numFrames ≤ 0) :
    ∃ o, piusb_ioctl env Cmd.PIUSB_SETFRAMESIZE ctrl s = some o ∧ o.retval = 0 ∧
      o.trace = [] ∧ o.state.frameSize = ctrl.numbytes ∧
      o.state.num_frames = ctrl.numFrames ∧ o.state.active_frame = 0 ∧
      o.state.PixelUrb.getD [] = [] ∧
      (ctrl.numFrames < 0 → o.state.PixelUrb = none) := by
  refine ⟨setFrameSize env ctrl s, by simp [piusb_ioctl, hp, ha, hc], ?_⟩
  simp only [setFrameSize, hring, Option.isSome_none, Bool.false_eq_true, if_false,
    true_and]
  constructor
  · unfold newArray
    split
    · simp [show ctrl.numFrames.toNat = 0 by omega]
    · rfl
  · intro hneg
    simp [newArray, show ¬ (0 ≤ ctrl.numFrames) by omega]

/-- The witness of C9: a request for zero frames on a freshly opened session. -/
theorem C9_nonpositive_count_accepted_witness :
    ∃ o, piusb_ioctl ioctlOk Cmd.PIUSB_SETFRAMESIZE ⟨4096, 0, 0, 0⟩
        (freshSession ST133_PID sampleEP) = some o ∧ o.retval = 0 ∧
      o.trace = [] ∧ o.state.frameSize = 4096 ∧
      o.state.num_frames = 0 ∧ o.state.active_frame = 0 ∧
      o.state.PixelUrb.getD [] = [] ∧
      ((0 : Int) < 0 → o.state.PixelUrb = none) :=
  C9_nonpositive_count_accepted ioctlOk ⟨4096, 0, 0, 0⟩ (freshSession ST133_PID sampleEP)
    rfl rfl rfl rfl (by decide)

/-- C9 as stated fails: on a freshly opened session (no ring, frame size 0) a request
for 4096 byte frames with frame count 0, and one with frame count -1, both return 0
and record the frame size 4096. -/
theorem C9_counterexample :
    (freshSession ST133_PID sampleEP).PixelUrb = none ∧
    (freshSession ST133_PID sampleEP).frameSize = 0 ∧
    (piusb_ioctl ioctlOk Cmd.PIUSB_SETFRAMESIZE ⟨4096, 0, 0, 0⟩
        (freshSession ST133_PID sampleEP)).map
      (fun o => (o.retval, o.state.frameSize, o.state.num_frames)) = some (0, 4096, 0) ∧
    (piusb_ioctl ioctlOk Cmd.PIUSB_SETFRAMESIZE ⟨4096, 0, -1, 0⟩
        (freshSession ST133_PID sampleEP)).map
      (fun o => (o.retval, o.state.frameSize, o.state.num_frames)) = some (0, 4096, -1) := by
  decide

/-- C10, the code at the failing input: after a frame was received and the ring was
unmapped the session has no ring and its write index `frameIdx` is 1; there
`PIUSB_SETFRAMESIZE` (4096 bytes, 4 frames) returns 0, records the frame size 4096 and
the frame count 4 and sets the consumer index `active_frame` to 0, but the write
index `frameIdx` is still 1. -/
theorem C10_write_index_kept :
    unmappedAfterFrame.map (fun s => (s.PixelUrb.isSome, s.frameIdx)) =
      some (false, 1) ∧
    unmappedAfterFrame.bind (fun s =>
      (piusb_ioctl ioctlOk Cmd.PIUSB_SETFRAMESIZE ⟨4096, 0, 4, 0⟩ s).map fun o =>
        (o.retval, o.state.frameSize, o.state.num_frames, o.state.active_frame,
          o.state.frameIdx)) =
      some (0, 4096, 4, 0, 1) := by
  decide

/-! ## Readout of a ready frame -/

theorem getAt_setAt {α : Type} (a : List α) (i j : Int) (v : α) :
    getAt (setAt a i v) j =
      if i = j ∧ 0 ≤ i ∧ i < a.length then some v else getAt a j := by
  unfold getAt setAt
  by_cases hi : 0 ≤ i
  · by_cases hj : 0 ≤ j
    · simp only [hi, hj, if_true, List.getElem?_set, true_and]
      by_cases hij : i = j
      · subst hij
        by_cases hl : i.toNat < a.length
        · simp [hl, show i < a.length by omega]
        · have : ¬ i < a.length := by omega
          simp only [hl, this, if_false, if_true, and_false]
          simp [List.getElem?_eq_none (Nat.le_of_not_lt hl)]
      · have : i.toNat ≠ j.toNat := by omega
        simp [hij, this]
    · have : i ≠ j := by omega
      simp [hi, hj, this]
  · simp [hi]

theorem frameUrbs_congr {s1 s2 : State} (h : s1.PixelUrb = s2.PixelUrb) (f : Int) :
    frameUrbs s1 f = frameUrbs s2 f := by
  unfold frameUrbs; rw [h]

/-- Storing an urb with the same requested length leaves the requested lengths of
every frame as they were. -/
theorem frameUrbs_storeUrb (s : State) (f g : Int) (i : Nat) (u0 u : Urb)
    (h0 : (frameUrbs s f)[i]? = some (some u0))
    (hl : u.transfer_buffer_length = u0.transfer_buffer_length) :
    (frameUrbs (storeUrb s f i u) g).map requested = (frameUrbs s g).map requested := by
  unfold storeUrb frameUrbs at *
  cases hp : s.PixelUrb with
  | none => simp
  | some rows =>
    simp only [hp, Option.getD_some, Option.map_some'] at h0 ⊢
    cases hg : getAt rows f with
    | none => simp
    | some row =>
      cases row with
      | none => simp
      | some row =>
        simp only [hg, Option.getD_some] at h0 ⊢
        rw [getAt_setAt]
        by_cases hfg : f = g
        · subst hfg
          have hin : 0 ≤ f ∧ f < rows.length := by
            unfold getAt at hg
            by_cases hf : 0 ≤ f
            · simp only [hf, if_true] at hg
              have := (List.getElem?_eq_some_iff.1 hg).1
              omega
            · simp [hf] at hg
          simp only [hin, and_self, if_true, Option.getD_some, hg, List.map_set]
          apply List.ext_getElem?
          intro j
          rw [List.getElem?_set]
          by_cases hij : i = j
          · subst hij
            have hlen : i < (List.map requested row).length := by
              have := (List.getElem?_eq_some_iff.1 h0).1
              simpa using this
            simp only [if_true, hlen, List.getElem?_map, h0, Option.map_some']
            simp [requested, hl]
          · simp [hij]
        · simp [hfg]

theorem armed_entry {s : State} {N : Int} {L : List Nat} (h : SlotsArmed s N L)
    {f : Int} (hf0 : 0 ≤ f) (hf1 : f < N) {i : Nat} (hi : i < L.length) :
    ∃ u, (frameUrbs s f)[i]? = some (some u) ∧ u.transfer_buffer_length = L.getD i 0 := by
  have h1 := congrArg (fun l => l[i]?) (h f hf0 hf1)
  simp only [List.getElem?_map, List.getElem?_eq_getElem hi, Option.map_some'] at h1
  cases hu : (frameUrbs s f)[i]? with
  | none => simp [hu] at h1
  | some ou =>
    cases ou with
    | none => simp [hu, requested] at h1
    | some u =>
      refine ⟨u, rfl, ?_⟩
      simp only [hu, Option.map_some', requested, Option.some.injEq] at h1
      simp [List.getD_eq_getElem?_getD, List.getElem?_eq_getElem hi, h1]

theorem armed_length {s : State} {N : Int} {L : List Nat} (h : SlotsArmed s N L)
    {f : Int} (hf0 : 0 ≤ f) (hf1 : f < N) : (frameUrbs s f).length = L.length := by
  have h1 := congrArg List.length (h f hf0 hf1)
  simpa using h1

theorem armed_transferLengths {s : State} {N : Int} {L : List Nat} (h : SlotsArmed s N L)
    {f : Int} (hf0 : 0 ≤ f) (hf1 : f < N) : transferLengths s f = L := by
  unfold transferLengths
  apply List.ext_getElem?
  intro i
  by_cases hi : i < L.length
  · obtain ⟨u, hu, hl⟩ := armed_entry h hf0 hf1 hi
    simp only [List.getElem?_map, hu, Option.map_some', Option.getD_some, hl]
    simp [List.getD_eq_getElem?_getD, List.getElem?_eq_getElem hi]
  · have hlen := armed_length h hf0 hf1
    rw [List.getElem?_eq_none (by simp; omega), List.getElem?_eq_none (by omega)]

/-- The completion of an urb of an armed frame runs the handler on the state in which
the urb carries the status and the byte count; the frames stay armed. -/
theorem complete_armed {s : State} {N : Int} {L : List Nat} (h : SlotsArmed s N L)
    {f : Int} (hf0 : 0 ≤ f) (hf1 : f < N) {i : Nat} (hi : i < L.length)
    (st : Int) (a : Nat) :
    ∃ u : Urb, u.status = st ∧ u.actual_length = a ∧
      complete s f i st a = piusb_read_pixel_callback (storeUrb s f i u) u ∧
      SlotsArmed (storeUrb s f i u) N L := by
  obtain ⟨u0, hu0, _⟩ := armed_entry h hf0 hf1 hi
  refine ⟨{ u0 with status := st, actual_length := a }, rfl, rfl, ?_, ?_⟩
  · unfold complete
    simp [List.getD_eq_getElem?_getD, hu0]
  · intro g hg0 hg1
    rw [frameUrbs_storeUrb s f g i u0 { u0 with status := st, actual_length := a }
      hu0 rfl]
    exact h g hg0 hg1

theorem step_below {s : State} {fs : Nat} {N : Int} {L : List Nat} {t : Nat} {fi : Int}
    (h : Accounting s fs N L t fi) {f : Int} (hf0 : 0 ≤ f) (hf1 : f < N) {i : Nat}
    (hi : i < L.length) (hlt : t + L.getD i 0 < fs) :
    ∃ s1, complete s f i 0 (L.getD i 0) = some s1 ∧
      Accounting s1 fs N L (t + L.getD i 0) fi ∧ s1.gotPixelData = s.gotPixelData := by
  obtain ⟨hfs, hN, harm, ht, hfi⟩ := h
  obtain ⟨u, hst, hal, hc, harm2⟩ := complete_armed harm hf0 hf1 hi 0 (L.getD i 0)
  have hcb := callback_below (storeUrb s f i u) u hst
    (by rw [hal]; show s.bulk_in_byte_trk + _ < s.frameSize; omega)
  rw [hc, hcb]
  refine ⟨_, rfl, ⟨hfs, hN, ?_, ?_, hfi⟩, rfl⟩
  · intro g hg0 hg1
    exact harm2 g hg0 hg1
  · show s.bulk_in_byte_trk + u.actual_length = _
    rw [hal, ht]

theorem step_reach {s : State} {fs : Nat} {N : Int} {L : List Nat} {t : Nat} {fi : Int}
    (h : Accounting s fs N L t fi) (hN0 : N ≠ 0) {f : Int} (hf0 : 0 ≤ f) (hf1 : f < N)
    {i : Nat} (hi : i < L.length) (hge : fs ≤ t + L.getD i 0) :
    ∃ s1, complete s f i 0 (L.getD i 0) = some s1 ∧
      Accounting s1 fs N L 0 (Int.tmod (fi + 1) N) ∧ s1.gotPixelData = 1 := by
  obtain ⟨hfs, hN, harm, ht, hfi⟩ := h
  obtain ⟨u, hst, hal, hc, harm2⟩ := complete_armed harm hf0 hf1 hi 0 (L.getD i 0)
  have hcb := callback_reach (storeUrb s f i u) u hst
    (by show s.num_frames ≠ 0; rw [hN]; exact hN0)
    (by rw [hal]; show s.frameSize ≤ s.bulk_in_byte_trk + _; omega)
  rw [hc, hcb]
  refine ⟨_, rfl, ⟨hfs, hN, ?_, rfl, ?_⟩, rfl⟩
  · intro g hg0 hg1
    exact harm2 g hg0 hg1
  · show Int.tmod (s.frameIdx + 1) s.num_frames = _
    rw [hfi, hN]

theorem take_sum_succ (L : List Nat) (i : Nat) (hi : i < L.length) :
    (L.take (i + 1)).sum = (L.take i).sum + L.getD i 0 := by
  rw [List.take_succ, List.sum_append]
  simp [List.getD_eq_getElem?_getD, List.getElem?_eq_getElem hi]

theorem take_sum_lt (L : List Nat) (hpos : ∀ x ∈ L, 0 < x) (i : Nat) (hi : i < L.length) :
    (L.take i).sum < L.sum := by
  have h := List.take_append_drop i L
  have h2 : L.sum = (L.take i).sum + (L.drop i).sum := by
    conv_lhs => rw [← h]
    rw [List.sum_append]
  have h3 : 0 < (L.drop i).sum := by
    have hd : L.drop i = L[i] :: L.drop (i + 1) := List.drop_eq_getElem_cons hi
    rw [hd, List.sum_cons]
    have := hpos L[i] (List.getElem_mem hi)
    omega
  omega

/-- The completions of the first `i` urbs of a frame, `i` less than the number of
urbs: the bytes are counted and nothing else changes. -/
theorem completeChunks_prefix {fs : Nat} {N : Int} {L : List Nat} {fi : Int}
    (hsum : L.sum = fs) (hpos : ∀ x ∈ L, 0 < x) {f : Int} (hf0 : 0 ≤ f) (hf1 : f < N) :
    ∀ (i : Nat) (s : State), Accounting s fs N L 0 fi → i < L.length →
      ∃ si, completeChunks s f i = some si ∧ Accounting si fs N L (L.take i).sum fi ∧
        si.gotPixelData = s.gotPixelData := by
  intro i
  induction i with
  | zero =>
    intro s h _
    exact ⟨s, rfl, by simpa using h, rfl⟩
  | succ i ih =>
    intro s h hi
    obtain ⟨si, hsi, hacc, hgot⟩ := ih s h (by omega)
    have hlt : (L.take i).sum + L.getD i 0 < fs := by
      rw [← take_sum_succ L i (by omega), ← hsum]
      exact take_sum_lt L hpos (i + 1) hi
    obtain ⟨s1, hs1, hacc1, hgot1⟩ := step_below hacc hf0 hf1 (by omega) hlt
    refine ⟨s1, ?_, ?_, by rw [hgot1, hgot]⟩
    · simp only [completeChunks, hsi, Option.some_bind]
      rw [armed_transferLengths hacc.2.2.1 hf0 hf1]
      exact hs1
    · rw [take_sum_succ L i (by omega)]
      exact hacc1

/-- The completion of the last urb of a frame asserts readiness, and no earlier one
does. -/
theorem assertsReady_iff {fs : Nat} {N : Int} {L : List Nat} {fi : Int}
    (hsum : L.sum = fs) (hpos : ∀ x ∈ L, 0 < x) (hN0 : N ≠ 0) {f : Int} (hf0 : 0 ≤ f)
    (hf1 : f < N) (i : Nat) (hi : i < L.length) (si : State)
    (hacc : Accounting si fs N L (L.take i).sum fi) :
    assertsReady si f i = decide (i + 1 = L.length) := by
  have hacc0 : Accounting { si with gotPixelData := 0 } fs N L (L.take i).sum fi := by
    obtain ⟨h1, h2, h3, h4, h5⟩ := hacc
    exact ⟨h1, h2, fun g hg0 hg1 => h3 g hg0 hg1, h4, h5⟩
  unfold assertsReady
  rw [armed_transferLengths hacc.2.2.1 hf0 hf1]
  by_cases hlast : i + 1 = L.length
  · have hge : fs ≤ (L.take i).sum + L.getD i 0 := by
      rw [← take_sum_succ L i hi, hlast, List.take_length, hsum]
    obtain ⟨s1, hs1, _, hgot⟩ := step_reach hacc0 hN0 hf0 hf1 hi hge
    rw [hs1]
    simp [hgot, hlast]
  · have hlt : (L.take i).sum + L.getD i 0 < fs := by
      rw [← take_sum_succ L i hi, ← hsum]
      exact take_sum_lt L hpos (i + 1) (by omega)
    obtain ⟨s1, hs1, _, hgot⟩ := step_below hacc0 hf0 hf1 hi hlt
    rw [hs1]
    simp [hgot, hlast]

/-- The completions of all urbs of a frame: the byte counter is back at 0, the frame
is ready and the active index has stepped. -/
theorem completeChunks_frame {fs : Nat} {N : Int} {L : List Nat} {fi : Int}
    (hsum : L.sum = fs) (hpos : ∀ x ∈ L, 0 < x) (hne : L ≠ []) (hN0 : N ≠ 0) {f : Int}
    (hf0 : 0 ≤ f) (hf1 : f < N) (s : State) (h : Accounting s fs N L 0 fi) :
    ∃ s1, completeChunks s f L.length = some s1 ∧
      Accounting s1 fs N L 0 (Int.tmod (fi + 1) N) ∧ s1.gotPixelData = 1 := by
  obtain ⟨m, hm⟩ : ∃ m, L.length = m + 1 :=
    ⟨L.length - 1, by have := List.length_pos.2 hne; omega⟩
  obtain ⟨si, hsi, hacc, _⟩ := completeChunks_prefix hsum hpos hf0 hf1 m s h (by omega)
  have hge : fs ≤ (L.take m).sum + L.getD m 0 := by
    rw [← take_sum_succ L m (by omega), ← hm, List.take_length, hsum]
  obtain ⟨s1, hs1, hacc1, hgot1⟩ := step_reach hacc hN0 hf0 hf1 (by omega) hge
  refine ⟨s1, ?_, hacc1, hgot1⟩
  rw [hm]
  simp only [completeChunks, hsi, Option.some_bind]
  rw [armed_transferLengths hacc.2.2.1 hf0 hf1]
  exact hs1

/-- After `k` whole frames the byte counter is 0 and the active index is `k % N`. -/
theorem completeFrames_index {fs N : Nat} {L : List Nat}
    (hsum : L.sum = fs) (hpos : ∀ x ∈ L, 0 < x) (hne : L ≠ []) (hN0 : 0 < N)
    (s : State) (h : Accounting s fs (Int.ofNat N) L 0 0) :
    ∀ k : Nat, ∃ sk, completeFrames s k = some sk ∧
      Accounting sk fs (Int.ofNat N) L 0 (Int.ofNat (k % N)) := by
  intro k
  induction k with
  | zero => exact ⟨s, rfl, by simpa using h⟩
  | succ k ih =>
    obtain ⟨sk, hsk, hacc⟩ := ih
    have hf0 : (0 : Int) ≤ Int.ofNat (k % N) := Int.ofNat_nonneg _
    have hf1 : Int.ofNat (k % N) < Int.ofNat N := by
      have := Nat.mod_lt k hN0
      simp only [Int.ofNat_eq_coe]; omega
    have hNz : Int.ofNat N ≠ 0 := by simp only [Int.ofNat_eq_coe]; omega
    obtain ⟨s1, hs1, hacc1, _⟩ :=
      completeChunks_frame hsum hpos hne hNz hf0 hf1 sk hacc
    refine ⟨s1, ?_, ?_⟩
    · simp only [completeFrames, hsk, Option.some_bind]
      have hslot : Int.ofNat k % sk.num_frames = Int.ofNat (k % N) := by
        rw [hacc.2.1]; simp
      rw [hslot, armed_length hacc.2.2.1 hf0 hf1]
      exact hs1
    · have hidx : Int.tmod (Int.ofNat (k % N) + 1) (Int.ofNat N) =
          Int.ofNat ((k + 1) % N) := by
        rw [Int.tmod_eq_emod (by omega) (by simp)]
        simp only [Int.ofNat_eq_coe]
        push_cast
        rw [Int.emod_add_emod]
      rw [← hidx]
      exact hacc1

/-! ## The armed ring -/

theorem chunkList_sum {nb : Nat} (h : nb < 2147483648) :
    ((List.range (numurb nb).toNat).map (urbSize nb)).sum = nb := by
  rw [chunkList_small h, List.sum_append, List.sum_replicate]
  have hdm := Nat.div_add_mod nb (min nb 102400)
  by_cases hz : nb % min nb 102400 = 0
  · simp only [hz, if_true, List.sum_nil, smul_eq_mul]
    rw [hz] at hdm
    rw [Nat.mul_comm]; omega
  · simp only [hz, if_false, List.sum_cons, List.sum_nil, smul_eq_mul]
    rw [Nat.mul_comm]; omega

theorem chunkList_pos {nb : Nat} (h0 : 0 < nb) (h : nb < 2147483648) :
    ∀ x ∈ (List.range (numurb nb).toNat).map (urbSize nb), 0 < x := by
  rw [chunkList_small h]
  intro x hx
  rcases List.mem_append.1 hx with hx | hx
  · have := (List.mem_replicate.1 hx).2
    omega
  · by_cases hz : nb % min nb 102400 = 0
    · simp [hz] at hx
    · simp only [hz, if_false, List.mem_singleton] at hx
      omega

theorem chunkList_ne_nil {nb : Nat} (h0 : 0 < nb) (h : nb < 2147483648) :
    (List.range (numurb nb).toNat).map (urbSize nb) ≠ [] := by
  intro hnil
  have hs := chunkList_sum h
  rw [hnil] at hs
  simp at hs
  omega

/-- The function `MapUserBuffer` touches none of the accounting fields. -/
theorem MapUserBuffer_fields {env : ArmEnv} {io : ioctl_struct} {s : State} {o : Outcome}
    (h : MapUserBuffer env io s = some o) :
    o.state.frameSize = s.frameSize ∧ o.state.num_frames = s.num_frames ∧
      o.state.bulk_in_byte_trk = s.bulk_in_byte_trk ∧ o.state.frameIdx = s.frameIdx ∧
      o.state.gotPixelData = s.gotPixelData ∧ o.state.urbIdx = s.urbIdx ∧
      o.state.active_frame = s.active_frame ∧
      o.state.bulk_in_size_returned = s.bulk_in_size_returned := by
  unfold MapUserBuffer at h
  cases hp : s.PixelUrb with
  | none =>
    simp only [hp, Option.some.injEq] at h
    subst h
    exact ⟨rfl, rfl, rfl, rfl, rfl, rfl, rfl, rfl⟩
  | some rows =>
    simp only [hp] at h
    by_cases hb : buf_size io.numbytes = 0
    · simp [hb] at h
    · simp only [hb, if_false] at h
      rcases ha : allocLoop env (epAddr s io.numFrames) io.numbytes
          (numurb io.numbytes).toNat 0 [] with ⟨b, urbs⟩
      rcases hs : submitLoop env io.numFrames (numurb io.numbytes).toNat 0
          (List.replicate (numurb io.numbytes).toNat 0) [] with ⟨rv, pend, tr⟩
      rw [ha, hs] at h
      cases b <;> simp only at h <;> repeat' split at h
      all_goals
        simp only [Option.some.injEq] at h
        subst h
        exact ⟨rfl, rfl, rfl, rfl, rfl, rfl, rfl, rfl⟩

/-- Arming the frames `0 .. n-1` of a ring with `numbytes` bytes each, every kernel
call succeeding: the frames hold urbs of the chunk lengths and the accounting fields
are as before. -/
theorem armSlots_armed (env : ArmEnv) (henv : env.allOk) (nb : Nat)
    (hb : buf_size nb ≠ 0) (pData : Nat → Nat) (c : State)
    (rows0 : List (Option (List (Option Urb)))) (hc : c.PixelUrb = some rows0) :
    ∀ n : Nat, n ≤ rows0.length →
      ∃ st rows, armSlots env nb pData c n = some st ∧ st.PixelUrb = some rows ∧
        rows.length = rows0.length ∧
        st.frameSize = c.frameSize ∧ st.num_frames = c.num_frames ∧
        st.bulk_in_byte_trk = c.bulk_in_byte_trk ∧ st.frameIdx = c.frameIdx ∧
        SlotsArmed st (Int.ofNat n) ((List.range (numurb nb).toNat).map (urbSize nb)) := by
  intro n
  induction n with
  | zero =>
    intro _
    refine ⟨c, rows0, rfl, hc, rfl, rfl, rfl, rfl, rfl, ?_⟩
    intro f hf0 hf1
    simp only [Int.ofNat_eq_coe] at hf1
    omega
  | succ n ih =>
    intro hn
    obtain ⟨st, rows, hst, hrows, hlen, h1, h2, h3, h4, harm⟩ := ih (by omega)
    obtain ⟨o, ho, hret⟩ := MapUserBuffer_succeeds env ⟨nb, 0, Int.ofNat n, pData n⟩ st
      rows hrows hb henv
    obtain ⟨rows2, hr2, _, hpx⟩ := MapUserBuffer_armed ho hret
    rw [hrows] at hr2
    cases hr2
    obtain ⟨g1, g2, g3, g4, _⟩ := MapUserBuffer_fields ho
    refine ⟨o.state, _, ?_, hpx, ?_, by rw [g1, h1], by rw [g2, h2], by rw [g3, h3],
      by rw [g4, h4], ?_⟩
    · simp only [armSlots, hst, Option.some_bind, ho, hret, if_true]
    · simp only [setAt, Int.ofNat_eq_coe, Int.natCast_nonneg, if_true, List.length_set]
      exact hlen
    · intro f hf0 hf1
      unfold frameUrbs
      rw [hpx]
      simp only [Option.getD_some, getAt_setAt]
      by_cases hfn : Int.ofNat n = f
      · have hin : (0 : Int) ≤ Int.ofNat n ∧ Int.ofNat n < rows.length := by
          simp only [Int.ofNat_eq_coe]; omega
        subst hfn
        simp only [true_and, hin, and_self, if_true, Option.getD_some, List.map_map]
        apply List.map_congr_left
        intro j _
        rfl
      · simp only [hfn, false_and, if_false]
        have := harm f hf0 (by simp only [Int.ofNat_eq_coe] at hf1 hfn ⊢; omega)
        unfold frameUrbs at this
        rw [hrows] at this
        exact this

/-- C3 (amended): start from a freshly opened session, configure `N > 0` frames of
`fs` bytes with `0 < fs < 2^31` and arm every frame with `fs` bytes (every kernel call
succeeding).  Then for every `k` the completions of `k` whole frames, fed urb by urb
and frame by frame in ring order with the requested lengths as actual lengths, are
all handled and leave the active index at `k % N`; every frame has at least one urb,
and when the urbs of the next frame are fed one by one, the completion of urb `i`
asserts readiness exactly when `i` is the last urb of the frame. -/
theorem C3_ring_order (iama : Int) (hEP : List Nat) (env : IoctlEnv) (aenv : ArmEnv)
    (pData : Nat → Nat) (fs N : Nat) (hN : 0 < N) (hfs : 0 < fs)
    (hint : fs < 2147483648) (hk : env.kmalloc 2 = true) (ha : aenv.allOk) :
    ∃ sa, armSlots aenv fs pData
        (setFrameSize env ⟨fs, 0, Int.ofNat N, 0⟩ (freshSession iama hEP)).state N =
          some sa ∧
      ∀ k : Nat, ∃ sk, completeFrames sa k = some sk ∧
        sk.frameIdx = Int.ofNat (k % N) ∧
        0 < (transferLengths sa (Int.ofNat (k % N))).length ∧
        ∀ i, i < (transferLengths sa (Int.ofNat (k % N))).length →
          ∃ si, completeChunks sk (Int.ofNat (k % N)) i = some si ∧
            assertsReady si (Int.ofNat (k % N)) i =
              decide (i + 1 = (transferLengths sa (Int.ofNat (k % N))).length) := by
  have hb : buf_size fs ≠ 0 := by rw [buf_size_small hint]; omega
  have hc : (setFrameSize env ⟨fs, 0, Int.ofNat N, 0⟩ (freshSession iama hEP)).state.PixelUrb
      = some (List.replicate N none) := by
    simp [setFrameSize, freshSession, piusb_open, probeState, newArray, hk]
  obtain ⟨sa, rows, hsa, _, _, h1, h2, h3, h4, harm⟩ :=
    armSlots_armed aenv ha fs hb pData _ _ hc N (by simp)
  have hacc : Accounting sa fs (Int.ofNat N)
      ((List.range (numurb fs).toNat).map (urbSize fs)) 0 0 := by
    refine ⟨?_, ?_, harm, ?_, ?_⟩
    · rw [h1]; simp [setFrameSize, freshSession, piusb_open, probeState]
    · rw [h2]; simp [setFrameSize, freshSession, piusb_open, probeState]
    · rw [h3]; simp [setFrameSize, freshSession, piusb_open, probeState]
    · rw [h4]; simp [setFrameSize, freshSession, piusb_open, probeState]
  have hsum := chunkList_sum hint
  have hpos := chunkList_pos hfs hint
  have hne := chunkList_ne_nil hfs hint
  refine ⟨sa, hsa, ?_⟩
  intro k
  obtain ⟨sk, hsk, hacck⟩ := completeFrames_index hsum hpos hne hN sa hacc k
  have hf0 : (0 : Int) ≤ Int.ofNat (k % N) := Int.ofNat_nonneg _
  have hf1 : Int.ofNat (k % N) < Int.ofNat N := by
    have := Nat.mod_lt k hN
    simp only [Int.ofNat_eq_coe]; omega
  have hNz : Int.ofNat N ≠ 0 := by simp only [Int.ofNat_eq_coe]; omega
  rw [armed_transferLengths harm hf0 hf1]
  refine ⟨sk, hsk, hacck.2.2.2.2, List.length_pos.2 hne, ?_⟩
  intro i hi
  obtain ⟨si, hsi, hacci, _⟩ := completeChunks_prefix hsum hpos hf0 hf1 i sk hacck hi
  exact ⟨si, hsi, assertsReady_iff hsum hpos hNz hf0 hf1 i hi si hacci⟩

/-- The witness of C3: three frames of 250000 bytes on the single-pipe device. -/
theorem C3_ring_order_witness :
    ∃ sa, armSlots armOk 250000 sampleBuf
        (setFrameSize ioctlOk ⟨250000, 0, Int.ofNat 3, 0⟩
          (freshSession ST133_PID sampleEP)).state 3 = some sa ∧
      ∀ k : Nat, ∃ sk, completeFrames sa k = some sk ∧
        sk.frameIdx = Int.ofNat (k % 3) ∧
        0 < (transferLengths sa (Int.ofNat (k % 3))).length ∧
        ∀ i, i < (transferLengths sa (Int.ofNat (k % 3))).length →
          ∃ si, completeChunks sk (Int.ofNat (k % 3)) i = some si ∧
            assertsReady si (Int.ofNat (k % 3)) i =
              decide (i + 1 = (transferLengths sa (Int.ofNat (k % 3))).length) :=
  C3_ring_order ST133_PID sampleEP ioctlOk armOk sampleBuf 250000 3
    (by decide) (by decide) (by decide) rfl
    ⟨rfl, rfl, fun _ => rfl, fun _ => rfl, fun _ => rfl⟩

/-- C3 as stated fails: with `frame_size = 2^32 + 1 > 0` and two frames armed with that
byte count, frame 0 holds a single urb of 1 byte; its completion with the requested
length, the last of the frame, does not assert readiness, and after this whole frame
the ready flag is clear and the active index is 0, not 1. -/
theorem C3_counterexample :
    (armSlots armOk 4294967297 sampleBuf
        (configured ST133_PID 4294967297 2) 2).map (fun sa =>
      (transferLengths sa 0, assertsReady sa 0 0,
        (completeFrames sa 1).map fun sk => (sk.gotPixelData, sk.frameIdx))) =
      some ([1], false, some (0, 0)) := by
  decide

/-! ## Teardown without a ring -/

theorem UnMapUserBuffer_no_ring (s : State) (h : s.PixelUrb = none) :
    UnMapUserBuffer s = ⟨s, -EINVAL, []⟩ := by
  unfold UnMapUserBuffer
  rw [h]

theorem UnMapUserBuffer_leaves_no_ring (s : State) :
    (UnMapUserBuffer s).state.PixelUrb = none := by
  unfold UnMapUserBuffer
  cases h : s.PixelUrb with
  | none => exact h
  | some rows => rfl

/-- C11 (amended): when no ring exists (`PixelUrb` is `NULL`), `UnMapUserBuffer` makes
no outside call and leaves the session state as it was, and it returns the error
`-EINVAL`; consequently, on any session `t`, a second `UnMapUserBuffer` right after a
first one ends in the state the first one left, and the second call returns
`-EINVAL`. -/
theorem C11_unmap_without_ring (s t : State) (h : s.PixelUrb = none) :
    UnMapUserBuffer s = ⟨s, -EINVAL, []⟩ ∧
    UnMapUserBuffer (UnMapUserBuffer t).state =
      ⟨(UnMapUserBuffer t).state, -EINVAL, []⟩ :=
  ⟨UnMapUserBuffer_no_ring s h,
    UnMapUserBuffer_no_ring _ (UnMapUserBuffer_leaves_no_ring t)⟩

/-- The witness of C11: a freshly opened session, and an armed ring unmapped twice. -/
theorem C11_unmap_without_ring_witness :
    UnMapUserBuffer (freshSession ST133_PID sampleEP) =
      ⟨freshSession ST133_PID sampleEP, -EINVAL, []⟩ ∧
    UnMapUserBuffer (UnMapUserBuffer armedRing).state =
      ⟨(UnMapUserBuffer armedRing).state, -EINVAL, []⟩ :=
  C11_unmap_without_ring (freshSession ST133_PID sampleEP) armedRing rfl

/-- C11 as stated fails: on a freshly opened session, which has no ring,
`UnMapUserBuffer` returns `-22` (`-EINVAL`), also through `PIUSB_UNMAP_USERBUFFER`;
and of two calls in a row on an armed ring the first returns 0 and the second
`-22`. -/
theorem C11_counterexample :
    (freshSession ST133_PID sampleEP).PixelUrb = none ∧
    (UnMapUserBuffer (freshSession ST133_PID sampleEP)).retval = -22 ∧
    (piusb_ioctl ioctlOk Cmd.PIUSB_UNMAP_USERBUFFER ⟨0, 0, 0, 0⟩
        (freshSession ST133_PID sampleEP)).map (fun o => o.retval) = some (-22) ∧
    (UnMapUserBuffer armedRing).retval = 0 ∧
    (UnMapUserBuffer (UnMapUserBuffer armedRing).state).retval = -22 := by
  decide

/-! ## Dispatch -/

/-- C12: once the presence flag is false, `piusb_ioctl` makes no outside call and leaves
the session state as it was, whatever the command and the answers of the kernel; it
returns 0 for `PIUSB_READPIPE` and `-ENODEV` for every other command, the codes it
does not know included. -/
theorem C12_device_gone (env : IoctlEnv) (cmd : Cmd) (ctrl : ioctl_struct) (s : State)
    (h : s.present = false) :
    piusb_ioctl env cmd ctrl s =
      some ⟨s, if cmd = Cmd.PIUSB_READPIPE then 0 else -ENODEV, []⟩ ∧
    piusb_ioctl env Cmd.PIUSB_READPIPE ctrl s = some ⟨s, 0, []⟩ ∧
    (cmd ≠ Cmd.PIUSB_READPIPE → piusb_ioctl env cmd ctrl s = some ⟨s, -ENODEV, []⟩) := by
  refine ⟨?_, ?_, ?_⟩
  · unfold piusb_ioctl
    simp [h]
  · unfold piusb_ioctl
    simp [h]
  · intro hc
    unfold piusb_ioctl
    simp [h, hc]

/-- The witness of C12: an armed ring after `piusb_disconnect`, asked to unmap. -/
theorem C12_device_gone_witness :
    piusb_ioctl ioctlOk Cmd.PIUSB_UNMAP_USERBUFFER ⟨0, 0, 0, 0⟩
        (piusb_disconnect armedRing) =
      some ⟨piusb_disconnect armedRing,
        if Cmd.PIUSB_UNMAP_USERBUFFER = Cmd.PIUSB_READPIPE then 0 else -ENODEV, []⟩ ∧
    piusb_ioctl ioctlOk Cmd.PIUSB_READPIPE ⟨0, 0, 0, 0⟩ (piusb_disconnect armedRing) =
      some ⟨piusb_disconnect armedRing, 0, []⟩ ∧
    (Cmd.PIUSB_UNMAP_USERBUFFER ≠ Cmd.PIUSB_READPIPE →
      piusb_ioctl ioctlOk Cmd.PIUSB_UNMAP_USERBUFFER ⟨0, 0, 0, 0⟩
          (piusb_disconnect armedRing) =
        some ⟨piusb_disconnect armedRing, -ENODEV, []⟩) :=
  C12_device_gone ioctlOk Cmd.PIUSB_UNMAP_USERBUFFER ⟨0, 0, 0, 0⟩
    (piusb_disconnect armedRing) rfl

/-! ## Endpoint of a frame -/

theorem epAddr_of_nonneg (s : State) (f : Int) (hf : 0 ≤ f) :
    epAddr s f =
      if s.iama = PIXIS_PID then
        if f % 2 = 0 then s.hEP.getD 2 0 else s.hEP.getD 3 0
      else s.hEP.getD 0 0 := by
  unfold epAddr
  rw [Int.tmod_eq_emod hf (by decide)]
  by_cases hp : s.iama = PIXIS_PID
  · by_cases h2 : f % 2 = 0
    · simp [hp, h2]
    · simp [hp, h2]
  · simp [hp]

/-- The urbs of a frame that was armed with success, entry by entry. -/
theorem frameUrbs_armed {env : ArmEnv} {io : ioctl_struct} {s : State} {o : Outcome}
    {rows : List (Option (List (Option Urb)))} (hring : s.PixelUrb = some rows)
    (h0 : 0 ≤ io.numFrames) (h1 : io.numFrames < rows.length)
    (h : MapUserBuffer env io s = some o) (hr : o.retval = 0) :
    frameUrbs o.state io.numFrames =
      (List.range (numurb io.numbytes).toNat).map fun j =>
        some { freshUrb with
          pipe := epAddr s io.numFrames
          transfer_buffer_length := urbSize io.numbytes j } := by
  obtain ⟨rows2, hr2, _, hst⟩ := MapUserBuffer_armed h hr
  rw [hring] at hr2
  cases hr2
  unfold frameUrbs
  rw [hst]
  simp only [Option.getD_some, getAt_setAt_self _ _ _ h0 h1]

/-- C13: when `MapUserBuffer` arms slot `f` of a configured ring, every urb of the slot
gets the same endpoint, fixed by the device identity and the parity of `f`: on the
ping-pong device (`iama = PIXIS_PID`) it is `hEP[2]` for even `f` and `hEP[3]` for odd
`f`, on any other device it is `hEP[0]`; the slot holds at least one urb when
`0 < numbytes < 2^31`; and on the ping-pong device with the odd frame count 3 the
slots 0, 1, 2 get `hEP[2]`, `hEP[3]`, `hEP[2]`. -/
theorem C13_slot_endpoint (env : ArmEnv) (io : ioctl_struct) (s : State) (o : Outcome)
    (rows : List (Option (List (Option Urb)))) (hring : s.PixelUrb = some rows)
    (hslot : 0 ≤ io.numFrames ∧ io.numFrames < rows.length)
    (h : MapUserBuffer env io s = some o) (hr : o.retval = 0) :
    (∀ u ∈ frameUrbs o.state io.numFrames, ∃ urb, u = some urb ∧
      urb.pipe =
        if s.iama = PIXIS_PID then
          if io.numFrames % 2 = 0 then s.hEP.getD 2 0 else s.hEP.getD 3 0
        else s.hEP.getD 0 0) ∧
    (0 < io.numbytes → io.numbytes < 2147483648 →
      frameUrbs o.state io.numFrames ≠ []) ∧
    pixisRing3.map (fun st => [some (st.hEP.getD 2 0), some (st.hEP.getD 3 0)]) =
      some [some 130, some 132] ∧
    pixisRing3.map (fun st => [framePipes st 0, framePipes st 1, framePipes st 2]) =
      some [[some 130], [some 132], [some 130]] := by
  have hfu := frameUrbs_armed hring hslot.1 hslot.2 h hr
  refine ⟨?_, ?_, by decide, by decide⟩
  · intro u hu
    rw [hfu] at hu
    obtain ⟨j, _, hj⟩ := List.mem_map.1 hu
    exact ⟨_, hj.symm, epAddr_of_nonneg s io.numFrames hslot.1⟩
  · intro hpos hlt hnil
    rw [hfu] at hnil
    have hne := chunkList_ne_nil hpos hlt
    have hlen := congrArg List.length hnil
    simp only [List.length_map, List.length_range, List.length_nil] at hlen
    apply hne
    simp [hlen]

/-- The witness of C13: slot 1 of a ring of three frames on the ping-pong device. -/
theorem C13_slot_endpoint_witness :
    (∀ u ∈ frameUrbs
        ((MapUserBuffer armOk ⟨4096, 0, 1, 65536⟩ (configured PIXIS_PID 4096 3)).getD
          ⟨configured PIXIS_PID 4096 3, 0, []⟩).state 1,
      ∃ urb, u = some urb ∧
      urb.pipe =
        if (configured PIXIS_PID 4096 3).iama = PIXIS_PID then
          if (1 : Int) % 2 = 0 then (configured PIXIS_PID 4096 3).hEP.getD 2 0
          else (configured PIXIS_PID 4096 3).hEP.getD 3 0
        else (configured PIXIS_PID 4096 3).hEP.getD 0 0) ∧
    (0 < 4096 → 4096 < 2147483648 →
      frameUrbs
        ((MapUserBuffer armOk ⟨4096, 0, 1, 65536⟩ (configured PIXIS_PID 4096 3)).getD
          ⟨configured PIXIS_PID 4096 3, 0, []⟩).state 1 ≠ []) ∧
    pixisRing3.map (fun st => [some (st.hEP.getD 2 0), some (st.hEP.getD 3 0)]) =
      some [some 130, some 132] ∧
    pixisRing3.map (fun st => [framePipes st 0, framePipes st 1, framePipes st 2]) =
      some [[some 130], [some 132], [some 130]] :=
  C13_slot_endpoint armOk ⟨4096, 0, 1, 65536⟩ (configured PIXIS_PID 4096 3)
    ((MapUserBuffer armOk ⟨4096, 0, 1, 65536⟩ (configured PIXIS_PID 4096 3)).getD
      ⟨configured PIXIS_PID 4096 3, 0, []⟩)
    [none, none, none] (by decide) (by decide) (by decide) (by decide)

/-! ## A failed arming -/

theorem allocLoop_fails (env : ArmEnv) (ep nb : Nat) :
    ∀ (k i : Nat) (acc : List (Option Urb)),
      (∃ j, i ≤ j ∧ j < i + k ∧
        (env.usb_alloc_urb j = false ∨ env.usb_alloc_coherent j = false)) →
      (allocLoop env ep nb k i acc).1 = false := by
  intro k
  induction k with
  | zero =>
    intro i acc ⟨j, h1, h2, _⟩
    omega
  | succ k ih =>
    intro i acc ⟨j, h1, h2, h3⟩
    unfold allocLoop
    by_cases ha : env.usb_alloc_urb i = true
    · by_cases hc : env.usb_alloc_coherent i = true
      · simp only [ha, hc, Bool.not_true, Bool.false_eq_true, if_false]
        apply ih
        refine ⟨j, ?_, by omega, h3⟩
        by_contra hlt
        have hji : j = i := by omega
        subst hji
        rcases h3 with h3 | h3
        · rw [ha] at h3; exact Bool.noConfusion h3
        · rw [hc] at h3; exact Bool.noConfusion h3
      · simp [ha, hc]
    · simp [ha]

theorem submitLoop_fails (env : ArmEnv) (f : Int) :
    ∀ (k i : Nat) (pend : List Nat) (tr : List Event),
      (∃ j, i ≤ j ∧ j < i + k ∧ env.usb_submit_urb j ≠ 0) →
      (submitLoop env f k i pend tr).1 ≠ 0 := by
  intro k
  induction k with
  | zero =>
    intro i pend tr ⟨j, h1, h2, _⟩
    omega
  | succ k ih =>
    intro i pend tr ⟨j, h1, h2, h3⟩
    unfold submitLoop
    by_cases hs : env.usb_submit_urb i = 0
    · simp only [hs, ne_eq, not_true_eq_false, if_false]
      apply ih
      refine ⟨j, ?_, by omega, h3⟩
      by_contra hlt
      have hji : j = i := by omega
      subst hji
      exact h3 hs
    · simp [hs]

/-- A nonzero value of the submission loop is what the submission of some urb
returned. -/
theorem submitLoop_retval (env : ArmEnv) (f : Int) :
    ∀ (k i : Nat) (pend : List Nat) (tr : List Event),
      (submitLoop env f k i pend tr).1 ≠ 0 →
      ∃ j, Event.submit f j ∈ (submitLoop env f k i pend tr).2.2 ∧
        env.usb_submit_urb j = (submitLoop env f k i pend tr).1 := by
  intro k
  induction k with
  | zero =>
    intro i pend tr h
    simp [submitLoop] at h
  | succ k ih =>
    intro i pend tr h
    unfold submitLoop at h ⊢
    by_cases hs : env.usb_submit_urb i = 0
    · simp only [hs, ne_eq, not_true_eq_false, if_false] at h ⊢
      exact ih _ _ _ h
    · simp only [ne_eq, hs, not_false_eq_true, if_true]
      exact ⟨i, by simp, rfl⟩

/-- Every urb whose submission succeeded carries the pending flag when the submission
loop ends. -/
theorem submitLoop_pending (env : ArmEnv) (f : Int) :
    ∀ (k i : Nat) (pend : List Nat) (tr : List Event),
      i + k ≤ pend.length →
      (∀ j, Event.submit f j ∈ tr → env.usb_submit_urb j = 0 →
        j < i ∧ pend.getD j 0 = 1) →
      ∀ j, Event.submit f j ∈ (submitLoop env f k i pend tr).2.2 →
        env.usb_submit_urb j = 0 →
        j < i + k ∧ (submitLoop env f k i pend tr).2.1.getD j 0 = 1 := by
  intro k
  induction k with
  | zero =>
    intro i pend tr _ hinv j hj h0
    exact hinv j hj h0
  | succ k ih =>
    intro i pend tr hlen hinv j hj h0
    unfold submitLoop at hj ⊢
    by_cases hs : env.usb_submit_urb i = 0
    · simp only [hs, ne_eq, not_true_eq_false, if_false] at hj ⊢
      have := ih (i + 1) (pend.set i 1) (tr ++ [Event.submit f i])
        (by simp only [List.length_set]; omega)
        (by
          intro m hm hm0
          rcases List.mem_append.1 hm with hm | hm
          · obtain ⟨h1, h2⟩ := hinv m hm hm0
            refine ⟨by omega, ?_⟩
            rw [List.getD_eq_getElem?_getD, List.getElem?_set_ne (by omega),
              ← List.getD_eq_getElem?_getD]
            exact h2
          · simp only [List.mem_singleton, Event.submit.injEq, true_and] at hm
            subst hm
            refine ⟨by omega, ?_⟩
            rw [List.getD_eq_getElem?_getD, List.getElem?_set_self (by omega)]
            rfl)
        j hj h0
      exact ⟨by omega, this.2⟩
    · simp only [ne_eq, hs, not_false_eq_true, if_true] at hj ⊢
      rcases List.mem_append.1 hj with hm | hm
      · obtain ⟨h1, h2⟩ := hinv j hm h0
        refine ⟨by omega, ?_⟩
        rw [List.getD_eq_getElem?_getD, List.getElem?_set_ne (by omega),
          ← List.getD_eq_getElem?_getD]
        exact h2
      · simp only [List.mem_singleton, Event.submit.injEq, true_and] at hm
        subst hm
        exact absurd h0 hs

theorem submit_not_mem_freeEvents (f : Int) (urbs : List (Option Urb)) (n j : Nat) :
    Event.submit f j ∉ freeEvents f urbs n := by
  simp [freeEvents]

theorem submit_not_mem_killEvents (f : Int) (pend : List Nat) (n j : Nat) :
    Event.submit f j ∉ killEvents f pend n := by
  simp [killEvents]

theorem kill_mem_killEvents (f : Int) (pend : List Nat) (n j : Nat) (hj : j < n)
    (hp : pend.getD j 0 = 1) : Event.kill f j ∈ killEvents f pend n := by
  simp only [killEvents, List.mem_map, List.mem_filter, List.mem_range]
  refine ⟨j, ⟨hj, ?_⟩, rfl⟩
  rw [hp]
  decide

/-- What a call of `MapUserBuffer` that returns an error leaves behind. -/
theorem MapUserBuffer_failed {env : ArmEnv} {io : ioctl_struct} {s : State} {o : Outcome}
    {rows : List (Option (List (Option Urb)))} (hring : s.PixelUrb = some rows)
    (h : MapUserBuffer env io s = some o) (hr : o.retval ≠ 0) :
    o.state.PixelUrb = some (setAt rows io.numFrames none) ∧
    o.state.sgEntries =
      s.sgEntries.map (fun e => setAt e io.numFrames (toUInt32 (numurb io.numbytes))) ∧
    (o.state.pendedPixelUrbs = s.pendedPixelUrbs ∨
      o.state.pendedPixelUrbs =
        s.pendedPixelUrbs.map fun p => setAt p io.numFrames none) ∧
    ((o.retval = -ENOMEM ∧ ∀ j, Event.submit io.numFrames j ∉ o.trace) ∨
      ∃ i, Event.submit io.numFrames i ∈ o.trace ∧ env.usb_submit_urb i = o.retval) ∧
    ∀ j, Event.submit io.numFrames j ∈ o.trace → env.usb_submit_urb j = 0 →
      Event.kill io.numFrames j ∈ o.trace := by
  unfold MapUserBuffer at h
  simp only [hring] at h
  by_cases hb : buf_size io.numbytes = 0
  · simp [hb] at h
  · simp only [hb, if_false] at h
    by_cases hk1 : env.kzalloc_urbs = true
    · by_cases hk2 : env.kzalloc_pended = true
      · simp only [hk1, hk2, Bool.not_true, Bool.false_eq_true, if_false] at h
        rcases ha : allocLoop env (epAddr s io.numFrames) io.numbytes
            (numurb io.numbytes).toNat 0 [] with ⟨b, urbs⟩
        rw [ha] at h
        cases b with
        | false =>
          simp only [Option.some.injEq] at h
          subst h
          refine ⟨rfl, rfl, Or.inr rfl, Or.inl ⟨rfl, ?_⟩, ?_⟩
          · intro j
            exact submit_not_mem_freeEvents _ _ _ _
          · intro j hj
            exact absurd hj (submit_not_mem_freeEvents _ _ _ _)
        | true =>
          simp only at h
          have hret := submitLoop_retval env io.numFrames (numurb io.numbytes).toNat 0
            (List.replicate (numurb io.numbytes).toNat 0) []
          have hpend := submitLoop_pending env io.numFrames (numurb io.numbytes).toNat 0
            (List.replicate (numurb io.numbytes).toNat 0) [] (by simp)
            (by intro j hj; simp at hj)
          rcases hs : submitLoop env io.numFrames (numurb io.numbytes).toNat 0
              (List.replicate (numurb io.numbytes).toNat 0) [] with ⟨rv, pend, tr⟩
          rw [hs] at h hret hpend
          simp only at h hret hpend
          by_cases hrv : rv = 0
          · simp only [hrv, ne_eq, not_true_eq_false, if_false, Option.some.injEq] at h
            subst h
            exact absurd rfl hr
          · simp only [hrv, ne_eq, not_false_eq_true, if_true, Option.some.injEq] at h
            subst h
            refine ⟨rfl, rfl, Or.inr rfl, Or.inr ?_, ?_⟩
            · obtain ⟨i, hi, hie⟩ := hret hrv
              exact ⟨i, by simp [hi], hie⟩
            · intro j hj h0
              have hj2 : Event.submit io.numFrames j ∈ tr := by
                simp only [List.mem_append] at hj
                rcases hj with (hj | hj) | hj
                · exact hj
                · exact absurd hj (submit_not_mem_killEvents _ _ _ _)
                · exact absurd hj (submit_not_mem_freeEvents _ _ _ _)
              obtain ⟨hlt, hp⟩ := hpend j hj2 h0
              simp only [List.mem_append]
              exact Or.inl (Or.inr (kill_mem_killEvents _ _ _ _ (by omega) hp))
      · simp only [hk1, hk2, Bool.not_true, Bool.false_eq_true, if_false, if_true,
          Bool.not_false, Option.some.injEq] at h
        subst h
        refine ⟨rfl, rfl, Or.inr rfl, Or.inl ⟨rfl, ?_⟩, ?_⟩
        · intro j; simp
        · intro j hj; simp at hj
    · simp only [hk1, Bool.not_false, if_true, Option.some.injEq] at h
      subst h
      refine ⟨rfl, rfl, Or.inl rfl, Or.inl ⟨rfl, ?_⟩, ?_⟩
      · intro j; simp
      · intro j hj; simp at hj

/-- A failing kernel call makes `MapUserBuffer` return an error. -/
theorem MapUserBuffer_fails {env : ArmEnv} {io : ioctl_struct} {s : State} {o : Outcome}
    {rows : List (Option (List (Option Urb)))} (hring : s.PixelUrb = some rows)
    (h : MapUserBuffer env io s = some o)
    (hf : env.fails (numurb io.numbytes).toNat) : o.retval ≠ 0 := by
  intro h0
  obtain ⟨_, _, hb, _⟩ := MapUserBuffer_armed h h0
  unfold MapUserBuffer at h
  simp only [hring, hb, if_false] at h
  rcases hf with hf | hf | hf | hf
  · simp only [hf, Bool.not_false, if_true, Option.some.injEq] at h
    subst h
    simp [ENOMEM] at h0
  · by_cases hk1 : env.kzalloc_urbs = true
    · simp only [hk1, hf, Bool.not_true, Bool.false_eq_true, if_false, Bool.not_false,
        if_true, Option.some.injEq] at h
      subst h
      simp [ENOMEM] at h0
    · simp only [hk1, Bool.not_false, if_true, Option.some.injEq] at h
      subst h
      simp [ENOMEM] at h0
  · obtain ⟨i, hi, hfa⟩ := hf
    have hal := allocLoop_fails env (epAddr s io.numFrames) io.numbytes
      (numurb io.numbytes).toNat 0 [] ⟨i, by omega, by omega, hfa⟩
    rcases ha : allocLoop env (epAddr s io.numFrames) io.numbytes
        (numurb io.numbytes).toNat 0 [] with ⟨b, urbs⟩
    rw [ha] at h hal
    simp only at hal
    subst hal
    by_cases hk1 : env.kzalloc_urbs = true
    · by_cases hk2 : env.kzalloc_pended = true
      · simp only [hk1, hk2, Bool.not_true, Bool.false_eq_true, if_false,
          Option.some.injEq] at h
        subst h
        simp [ENOMEM] at h0
      · simp only [hk1, hk2, Bool.not_true, Bool.false_eq_true, if_false, if_true,
          Bool.not_false, Option.some.injEq] at h
        subst h
        simp [ENOMEM] at h0
    · simp only [hk1, Bool.not_false, if_true, Option.some.injEq] at h
      subst h
      simp [ENOMEM] at h0
  · obtain ⟨i, hi, hfs⟩ := hf
    have hsl := submitLoop_fails env io.numFrames (numurb io.numbytes).toNat 0
      (List.replicate (numurb io.numbytes).toNat 0) [] ⟨i, by omega, by omega, hfs⟩
    rcases ha : allocLoop env (epAddr s io.numFrames) io.numbytes
        (numurb io.numbytes).toNat 0 [] with ⟨b, urbs⟩
    rcases hs : submitLoop env io.numFrames (numurb io.numbytes).toNat 0
        (List.replicate (numurb io.numbytes).toNat 0) [] with ⟨rv, pend, tr⟩
    rw [ha, hs] at h
    rw [hs] at hsl
    simp only at hsl
    by_cases hk1 : env.kzalloc_urbs = true
    · by_cases hk2 : env.kzalloc_pended = true
      · simp only [hk1, hk2, Bool.not_true, Bool.false_eq_true, if_false] at h
        cases b with
        | false =>
          simp only [Option.some.injEq] at h
          subst h
          simp [ENOMEM] at h0
        | true =>
          simp only [hsl, ne_eq, not_false_eq_true, if_true, Option.some.injEq] at h
          subst h
          exact hsl h0
      · simp only [hk1, hk2, Bool.not_true, Bool.false_eq_true, if_false, if_true,
          Bool.not_false, Option.some.injEq] at h
        subst h
        simp [ENOMEM] at h0
    · simp only [hk1, Bool.not_false, if_true, Option.some.injEq] at h
      subst h
      simp [ENOMEM] at h0

theorem getAt_setAt_ne {α : Type} (a : List α) (i j : Int) (v : α) (h : i ≠ j) :
    getAt (setAt a i v) j = getAt a j := by
  rw [getAt_setAt]
  simp [h]

/-- C14: let `MapUserBuffer` run on slot `f` of a configured ring without trapping.
If a kernel call it makes fails (a `kzalloc`, an allocation for one of the urbs, or
the submission of one of the urbs) it returns an error.  Whenever it returns an
error, the value is `-ENOMEM` with nothing submitted, or it is the nonzero value that
the submission of an urb returned; every urb whose submission had succeeded in this
call is killed; slot `f` holds no urb afterwards, so none of the `sgEntries[f]` chunks
recorded for it is an urb; and for every other slot the urbs, the recorded chunk
count and the pending flags are as before. -/
theorem C14_failed_arm (env : ArmEnv) (io : ioctl_struct) (s : State) (o : Outcome)
    (rows : List (Option (List (Option Urb)))) (hring : s.PixelUrb = some rows)
    (hslot : 0 ≤ io.numFrames ∧ io.numFrames < rows.length)
    (h : MapUserBuffer env io s = some o) :
    (env.fails (numurb io.numbytes).toNat → o.retval ≠ 0) ∧
    (o.retval ≠ 0 →
      ((o.retval = -ENOMEM ∧ ∀ j, Event.submit io.numFrames j ∉ o.trace) ∨
        ∃ i, Event.submit io.numFrames i ∈ o.trace ∧
          env.usb_submit_urb i = o.retval) ∧
      (∀ j, Event.submit io.numFrames j ∈ o.trace → env.usb_submit_urb j = 0 →
        Event.kill io.numFrames j ∈ o.trace) ∧
      frameUrbs o.state io.numFrames = [] ∧
      (∀ i, i < sgEntriesAt o.state io.numFrames →
        (frameUrbs o.state io.numFrames).getD i none = none) ∧
      ∀ g, g ≠ io.numFrames →
        frameUrbs o.state g = frameUrbs s g ∧
        sgEntriesAt o.state g = sgEntriesAt s g ∧
        ∀ i, pendedAt o.state g i = pendedAt s g i) := by
  refine ⟨MapUserBuffer_fails hring h, ?_⟩
  intro hr
  obtain ⟨hpx, hsg, hpd, hret, hkill⟩ := MapUserBuffer_failed hring h hr
  have hempty : frameUrbs o.state io.numFrames = [] := by
    unfold frameUrbs
    rw [hpx]
    simp [getAt_setAt_self _ _ _ hslot.1 hslot.2]
  refine ⟨hret, hkill, hempty, ?_, ?_⟩
  · intro i _
    rw [hempty]
    rfl
  · intro g hg
    refine ⟨?_, ?_, ?_⟩
    · unfold frameUrbs
      rw [hpx, hring]
      simp only [Option.getD_some]
      rw [getAt_setAt_ne _ _ _ _ (Ne.symm hg)]
    · unfold sgEntriesAt
      rw [hsg]
      cases s.sgEntries with
      | none => rfl
      | some e =>
        simp only [Option.map_some', Option.getD_some]
        rw [getAt_setAt_ne _ _ _ _ (Ne.symm hg)]
    · intro i
      unfold pendedAt
      rcases hpd with hpd | hpd
      · rw [hpd]
      · rw [hpd]
        cases s.pendedPixelUrbs with
        | none => rfl
        | some p =>
          simp only [Option.map_some', Option.getD_some]
          rw [getAt_setAt_ne _ _ _ _ (Ne.symm hg)]

/-- The witness of C14: frame 1 of a ring whose frame 0 is armed; the submission of
the third urb fails. -/
theorem C14_failed_arm_witness :
    (armFailsAt2.fails (numurb 250000).toNat → failedArm.retval ≠ 0) ∧
    (failedArm.retval ≠ 0 →
      ((failedArm.retval = -ENOMEM ∧ ∀ j, Event.submit 1 j ∉ failedArm.trace) ∨
        ∃ i, Event.submit 1 i ∈ failedArm.trace ∧
          armFailsAt2.usb_submit_urb i = failedArm.retval) ∧
      (∀ j, Event.submit 1 j ∈ failedArm.trace → armFailsAt2.usb_submit_urb j = 0 →
        Event.kill 1 j ∈ failedArm.trace) ∧
      frameUrbs failedArm.state 1 = [] ∧
      (∀ i, i < sgEntriesAt failedArm.state 1 →
        (frameUrbs failedArm.state 1).getD i none = none) ∧
      ∀ g, g ≠ 1 →
        frameUrbs failedArm.state g = frameUrbs halfArmed g ∧
        sgEntriesAt failedArm.state g = sgEntriesAt halfArmed g ∧
        ∀ i, pendedAt failedArm.state g i = pendedAt halfArmed g i) :=
  C14_failed_arm armFailsAt2 ⟨250000, 0, 1, 131072⟩ halfArmed failedArm
    (halfArmed.PixelUrb.getD []) (by decide) (by decide) (by decide)

/-! ## Completions with an unlink status -/

theorem isHardError_unlink {st : Int}
    (h : st = -ENOENT ∨ st = -ECONNRESET ∨ st = -ESHUTDOWN) : isHardError st = false := by
  rcases h with h | h | h <;> subst h <;> decide

/-- The handler treats an unlink status as it treats status 0. -/
theorem callback_unlink (s : State) (urb : Urb)
    (h : urb.status = -ENOENT ∨ urb.status = -ECONNRESET ∨ urb.status = -ESHUTDOWN) :
    piusb_read_pixel_callback s urb =
      piusb_read_pixel_callback s { urb with status := 0 } := by
  unfold piusb_read_pixel_callback
  rw [isHardError_unlink h, isHardError_zero]

/-- C15 (amended): a completion whose status is `-ENOENT`, `-ECONNRESET` or
`-ESHUTDOWN` records no error and is accounted exactly as a completion with status 0
and the same actual length: while the new total is below `frameSize` the byte counter
grows by the actual length and the urb index by one; when the new total reaches
`frameSize` (on a ring with `num_frames ≠ 0`) the ready flag is set, the byte counter
is reset and the active index steps. -/
theorem C15_unlink_completion (s : State) (urb : Urb)
    (h : urb.status = -ENOENT ∨ urb.status = -ECONNRESET ∨ urb.status = -ESHUTDOWN) :
    piusb_read_pixel_callback s urb =
      piusb_read_pixel_callback s { urb with status := 0 } ∧
    (s.bulk_in_byte_trk + urb.actual_length < s.frameSize →
      piusb_read_pixel_callback s urb =
        some { s with
          bulk_in_byte_trk := s.bulk_in_byte_trk + urb.actual_length
          urbIdx := s.urbIdx + 1 }) ∧
    (s.frameSize ≤ s.bulk_in_byte_trk + urb.actual_length → s.num_frames ≠ 0 →
      piusb_read_pixel_callback s urb =
        some { s with
          bulk_in_size_returned := Int.ofNat (s.bulk_in_byte_trk + urb.actual_length)
          bulk_in_byte_trk := 0
          gotPixelData := 1
          frameIdx := Int.tmod (s.frameIdx + 1) s.num_frames
          urbIdx := 0 }) := by
  refine ⟨callback_unlink s urb h, ?_, ?_⟩
  · intro hlt
    rw [callback_unlink s urb h]
    exact callback_below s { urb with status := 0 } rfl hlt
  · intro hge hN
    rw [callback_unlink s urb h]
    exact callback_reach s { urb with status := 0 } rfl hN hge

/-- The witness of C15: a killed urb that had received 100 bytes. -/
theorem C15_unlink_completion_witness :
    piusb_read_pixel_callback armedRing ⟨129, 4096, 100, -ENOENT⟩ =
      piusb_read_pixel_callback armedRing
        { (⟨129, 4096, 100, -ENOENT⟩ : Urb) with status := 0 } ∧
    (armedRing.bulk_in_byte_trk + 100 < armedRing.frameSize →
      piusb_read_pixel_callback armedRing ⟨129, 4096, 100, -ENOENT⟩ =
        some { armedRing with
          bulk_in_byte_trk := armedRing.bulk_in_byte_trk + 100
          urbIdx := armedRing.urbIdx + 1 }) ∧
    (armedRing.frameSize ≤ armedRing.bulk_in_byte_trk + 100 → armedRing.num_frames ≠ 0 →
      piusb_read_pixel_callback armedRing ⟨129, 4096, 100, -ENOENT⟩ =
        some { armedRing with
          bulk_in_size_returned := Int.ofNat (armedRing.bulk_in_byte_trk + 100)
          bulk_in_byte_trk := 0
          gotPixelData := 1
          frameIdx := Int.tmod (armedRing.frameIdx + 1) armedRing.num_frames
          urbIdx := 0 }) :=
  C15_unlink_completion armedRing ⟨129, 4096, 100, -ENOENT⟩ (Or.inl rfl)

/-- C15 as stated fails: on an armed ring of four 4096 byte frames (byte counter 0,
urb index 0, ready flag 0, active index 0) the completion of the urb of frame 0 with
status `-ENOENT` and 100 bytes leaves the byte counter at 100 and the urb index at 1,
and one with status `-ESHUTDOWN` and 4096 bytes sets the ready flag and moves the
active index to 1. -/
theorem C15_counterexample :
    (armedRing.bulk_in_byte_trk, armedRing.urbIdx, armedRing.gotPixelData,
      armedRing.frameIdx) = (0, 0, 0, 0) ∧
    (complete armedRing 0 0 (-ENOENT) 100).map (fun s =>
      (s.bulk_in_byte_trk, s.urbIdx, s.gotPixelData, s.frameIdx)) = some (100, 1, 0, 0) ∧
    (complete armedRing 0 0 (-ESHUTDOWN) 4096).map (fun s =>
      (s.bulk_in_byte_trk, s.urbIdx, s.gotPixelData, s.frameIdx)) = some (0, 0, 1, 1) := by
  decide

/-! ## The loop of the readout -/

/-- The loop of `get_pixel_data` over urbs whose destinations are writable: no fault,
one copy and one submission per urb, and the failures counted. -/
theorem drainLoop_run (env : DrainEnv) (s : State) :
    ∀ (k i : Nat) (acc : DrainLoop),
      (∀ m, i ≤ m → m < i + k →
        env.access_ok (chunkDest s m) (chunkLen s m) = true) →
      (drainLoop env s.active_frame (frameUrbs s s.active_frame) k i (chunkDest s i)
          acc).fault = acc.fault ∧
      (drainLoop env s.active_frame (frameUrbs s s.active_frame) k i (chunkDest s i)
          acc).trace = acc.trace ++ (List.range' i k).flatMap (chunkEvents s) ∧
      (drainLoop env s.active_frame (frameUrbs s s.active_frame) k i (chunkDest s i)
          acc).errCnt =
        acc.errCnt + Int.ofNat ((List.range' i k).filter (countedFailure env)).length := by
  intro k
  induction k with
  | zero =>
    intro i acc _
    simp [drainLoop]
  | succ k ih =>
    intro i acc hw
    have hwi : env.access_ok (chunkDest s i) (chunkLen s i) = true :=
      hw i (Nat.le_refl _) (by omega)
    have hrest : ∀ m, i + 1 ≤ m → m < i + 1 + k →
        env.access_ok (chunkDest s m) (chunkLen s m) = true :=
      fun m h1 h2 => hw m (by omega) (by omega)
    unfold drainLoop
    simp only
    rw [show (((frameUrbs s s.active_frame).getD i none).getD freshUrb).actual_length =
      chunkLen s i from rfl, hwi]
    simp only [Bool.not_true, Bool.false_eq_true, if_false]
    rw [show chunkDest s i + chunkLen s i = chunkDest s (i + 1) from rfl]
    by_cases hc : env.usb_submit_urb i ≠ 0 ∧ env.usb_submit_urb i ≠ -EPERM
    · rw [if_pos hc]
      obtain ⟨h1, h2, h3⟩ := ih (i + 1)
        { acc with
          errCnt := acc.errCnt + 1
          lastErr := if env.usb_submit_urb i ≠ acc.lastErr then env.usb_submit_urb i
            else acc.lastErr
          trace := acc.trace ++
            [Event.copy_to_user (chunkDest s i) i (chunkLen s i),
              Event.submit s.active_frame i] } hrest
      refine ⟨h1, ?_, ?_⟩
      · rw [h2]
        simp [List.range'_succ, chunkEvents]
      · rw [h3]
        have hcf : countedFailure env i = true := by simp [countedFailure, hc]
        simp only [List.range'_succ, List.filter_cons, hcf, if_true, List.length_cons,
          Int.ofNat_eq_coe]
        push_cast
        omega
    · rw [if_neg hc]
      obtain ⟨h1, h2, h3⟩ := ih (i + 1)
        { acc with
          trace := acc.trace ++
            [Event.copy_to_user (chunkDest s i) i (chunkLen s i),
              Event.submit s.active_frame i] } hrest
      refine ⟨h1, ?_, ?_⟩
      · rw [h2]
        simp [List.range'_succ, chunkEvents]
      · rw [h3]
        have hcf : countedFailure env i = false := by simp [countedFailure, hc]
        simp [List.range'_succ, List.filter_cons, hcf]

/-- The readout of a ready frame whose destinations are writable, in full. -/
theorem get_pixel_data_writable (env : DrainEnv) (s : State) (hring : ringExists s = true)
    (hready : 0 < s.gotPixelData) (hN : s.num_frames ≠ 0)
    (hw : Writable env s (sgEntriesAt s s.active_frame)) :
    ∃ o, get_pixel_data env s = some o ∧
      o.retval = toInt32 (Int.ofNat (toULong s.bulk_in_size_returned)) ∧
      o.trace = drainEvents s (sgEntriesAt s s.active_frame) ∧
      o.state.errCnt =
        s.errCnt + Int.ofNat (resubmitFailures env (sgEntriesAt s s.active_frame)) ∧
      o.state = { s with
        gotPixelData := 0
        bulk_in_size_returned := s.bulk_in_size_returned - s.frameSize
        errCnt := o.state.errCnt
        lastErr := o.state.lastErr
        active_frame := Int.tmod (s.active_frame + 1) s.num_frames } := by
  obtain ⟨h1, h2, h3⟩ := drainLoop_run env s (sgEntriesAt s s.active_frame) 0
    ⟨false, s.errCnt, s.lastErr, []⟩
    (fun m _ hm => hw m (by omega))
  unfold get_pixel_data
  rw [if_neg (by simp [hring]), if_neg (by omega), if_neg (by omega)]
  simp only
  rw [show userBufferAt s s.active_frame = chunkDest s 0 from rfl]
  simp only [h1, Bool.false_eq_true, if_false]
  rw [if_neg hN]
  refine ⟨_, rfl, rfl, ?_, ?_, rfl⟩
  · simp only [h2, List.nil_append, drainEvents, List.range_eq_range']
  · simp only [h3, resubmitFailures, List.range_eq_range']

/-- C17 (amended): on a present device whose argument passes the access check of
lines 776-784, `PIUSB_READPIPE` with a readable `ioctl_struct` is dispatched on the
device identity and the endpoint selector alone: on the ping-pong device selectors 2
and 3 run `get_pixel_data`, selectors 0 and 4 the blocking read, any other selector
returns `-EINVAL` with the state as it was; on any other device selector 0 runs
`get_pixel_data`, selector 1 the blocking read, any other selector returns `-EINVAL`
with the state as it was; a command code that is not known returns `-ENOTTY`.  When
the `ioctl_struct` cannot be read `PIUSB_READPIPE` returns `-EFAULT`, and when the
argument fails the access check every command returns `-EFAULT`. -/
theorem C17_read_dispatch (env : IoctlEnv) (ctrl : ioctl_struct) (s : State)
    (hp : s.present = true) :
    (env.arg_access_err = false → env.copy_from_user_fails = false →
      piusb_ioctl env Cmd.PIUSB_READPIPE ctrl s =
        if s.iama = PIXIS_PID then
          if ctrl.endpoint = 2 ∨ ctrl.endpoint = 3 then get_pixel_data env.drain s
          else if ctrl.endpoint = 0 ∨ ctrl.endpoint = 4 then
            some ⟨s, env.read_result, []⟩
          else some ⟨s, -EINVAL, []⟩
        else
          if ctrl.endpoint = 0 then get_pixel_data env.drain s
          else if ctrl.endpoint = 1 then some ⟨s, env.read_result, []⟩
          else some ⟨s, -EINVAL, []⟩) ∧
    (env.arg_access_err = false → ∀ code,
      piusb_ioctl env (Cmd.unknown code) ctrl s = some ⟨s, -ENOTTY, []⟩) ∧
    (env.arg_access_err = false → env.copy_from_user_fails = true →
      piusb_ioctl env Cmd.PIUSB_READPIPE ctrl s = some ⟨s, -EFAULT, []⟩) ∧
    (env.arg_access_err = true → ∀ cmd,
      piusb_ioctl env cmd ctrl s = some ⟨s, -EFAULT, []⟩) := by
  refine ⟨?_, ?_, ?_, ?_⟩
  · intro ha hc
    unfold piusb_ioctl readPipe
    simp only [hp, ha, hc, Bool.not_true, Bool.false_eq_true, if_false]
    by_cases hi : s.iama = PIXIS_PID
    · simp only [hi, if_true]
      by_cases h0 : ctrl.endpoint = 0
      · simp [h0]
      · by_cases h4 : ctrl.endpoint = 4
        · simp [h4]
        · simp [h0, h4]
    · simp only [hi, if_false]
  · intro ha code
    unfold piusb_ioctl
    simp [hp, ha]
  · intro ha hc
    unfold piusb_ioctl
    simp [hp, ha, hc]
  · intro ha cmd
    unfold piusb_ioctl
    simp [hp, ha]

/-- The witness of C17: the ping-pong device asked to read selector 7. -/
theorem C17_read_dispatch_witness :
    (ioctlOk.arg_access_err = false → ioctlOk.copy_from_user_fails = false →
      piusb_ioctl ioctlOk Cmd.PIUSB_READPIPE ⟨0, 7, 0, 0⟩ (configured PIXIS_PID 4096 4) =
        if (configured PIXIS_PID 4096 4).iama = PIXIS_PID then
          if (7 : Int) = 2 ∨ (7 : Int) = 3 then
            get_pixel_data ioctlOk.drain (configured PIXIS_PID 4096 4)
          else if (7 : Int) = 0 ∨ (7 : Int) = 4 then
            some ⟨configured PIXIS_PID 4096 4, ioctlOk.read_result, []⟩
          else some ⟨configured PIXIS_PID 4096 4, -EINVAL, []⟩
        else
          if (7 : Int) = 0 then get_pixel_data ioctlOk.drain (configured PIXIS_PID 4096 4)
          else if (7 : Int) = 1 then
            some ⟨configured PIXIS_PID 4096 4, ioctlOk.read_result, []⟩
          else some ⟨configured PIXIS_PID 4096 4, -EINVAL, []⟩) ∧
    (ioctlOk.arg_access_err = false → ∀ code,
      piusb_ioctl ioctlOk (Cmd.unknown code) ⟨0, 7, 0, 0⟩ (configured PIXIS_PID 4096 4) =
        some ⟨configured PIXIS_PID 4096 4, -ENOTTY, []⟩) ∧
    (ioctlOk.arg_access_err = false → ioctlOk.copy_from_user_fails = true →
      piusb_ioctl ioctlOk Cmd.PIUSB_READPIPE ⟨0, 7, 0, 0⟩ (configured PIXIS_PID 4096 4) =
        some ⟨configured PIXIS_PID 4096 4, -EFAULT, []⟩) ∧
    (ioctlOk.arg_access_err = true → ∀ cmd,
      piusb_ioctl ioctlOk cmd ⟨0, 7, 0, 0⟩ (configured PIXIS_PID 4096 4) =
        some ⟨configured PIXIS_PID 4096 4, -EFAULT, []⟩) :=
  C17_read_dispatch ioctlOk ⟨0, 7, 0, 0⟩ (configured PIXIS_PID 4096 4) rfl

/-- C17 as stated fails: on a present ping-pong device, when the argument fails the
access check of lines 776-779 a command code that is not known (here `0xC0000000`,
whose direction bits ask for the check) returns `-14` (`-EFAULT`), not `-ENOTTY`, and
when the `ioctl_struct` cannot be read `PIUSB_READPIPE` returns `-14` whatever the
selector (here 7, for which the claim says `-EINVAL`, and 2, for which it says the
readout runs). -/
theorem C17_counterexample :
    (configured PIXIS_PID 4096 4).present = true ∧
    (piusb_ioctl ioctlBadArg (Cmd.unknown 3221225472) ⟨0, 7, 0, 0⟩
        (configured PIXIS_PID 4096 4)).map (fun o => o.retval) = some (-14) ∧
    (piusb_ioctl ioctlBadCopy Cmd.PIUSB_READPIPE ⟨0, 7, 0, 0⟩
        (configured PIXIS_PID 4096 4)).map (fun o => o.retval) = some (-14) ∧
    (piusb_ioctl ioctlBadCopy Cmd.PIUSB_READPIPE ⟨0, 2, 0, 0⟩
        { configured PIXIS_PID 4096 4 with gotPixelData := 1 }).map
      (fun o => (o.retval, o.state.gotPixelData)) = some (-14, 1) := by
  decide

/-! ## The two indices along a session -/

theorem callback_indices {s s1 : State} {urb : Urb}
    (h : piusb_read_pixel_callback s urb = some s1) :
    s1.active_frame = s.active_frame ∧ s1.num_frames = s.num_frames ∧
      s1.PixelUrb = s.PixelUrb ∧
      (s1.frameIdx = s.frameIdx ∨
        s1.frameIdx = Int.tmod (s.frameIdx + 1) s.num_frames) := by
  unfold piusb_read_pixel_callback at h
  split at h
  · cases h
    exact ⟨rfl, rfl, rfl, Or.inl rfl⟩
  · simp only at h
    split at h
    · split at h
      · cases h
      · cases h
        exact ⟨rfl, rfl, rfl, Or.inr rfl⟩
    · cases h
      exact ⟨rfl, rfl, rfl, Or.inl rfl⟩

theorem complete_indices {s s1 : State} {f : Int} {i : Nat} {st : Int} {a : Nat}
    (h : complete s f i st a = some s1) :
    s1.active_frame = s.active_frame ∧ s1.num_frames = s.num_frames ∧
      s1.PixelUrb.isSome = s.PixelUrb.isSome ∧
      (s1.frameIdx = s.frameIdx ∨
        s1.frameIdx = Int.tmod (s.frameIdx + 1) s.num_frames) := by
  unfold complete at h
  split at h
  · cases h
    exact ⟨rfl, rfl, rfl, Or.inl rfl⟩
  · obtain ⟨h1, h2, h3, h4⟩ := callback_indices h
    refine ⟨h1, h2, ?_, h4⟩
    rw [h3]
    simp [storeUrb]

theorem get_pixel_data_indices {env : DrainEnv} {s : State} {o : Outcome}
    (h : get_pixel_data env s = some o) :
    o.state.frameIdx = s.frameIdx ∧ o.state.num_frames = s.num_frames ∧
      o.state.PixelUrb = s.PixelUrb ∧
      (o.state.active_frame = s.active_frame ∨
        (s.num_frames ≠ 0 ∧
          o.state.active_frame = Int.tmod (s.active_frame + 1) s.num_frames)) := by
  unfold get_pixel_data at h
  split at h
  · cases h
  split at h
  · cases h
    exact ⟨rfl, rfl, rfl, Or.inl rfl⟩
  · split at h
    · cases h
      exact ⟨rfl, rfl, rfl, Or.inl rfl⟩
    · simp only at h
      split at h
      · cases h
        exact ⟨rfl, rfl, rfl, Or.inl rfl⟩
      · split at h
        · cases h
        · rename_i hN
          cases h
          exact ⟨rfl, rfl, rfl, Or.inr ⟨hN, rfl⟩⟩

theorem MapUserBuffer_ring {env : ArmEnv} {io : ioctl_struct} {s : State} {o : Outcome}
    (h : MapUserBuffer env io s = some o) :
    o.state.PixelUrb.isSome = s.PixelUrb.isSome := by
  unfold MapUserBuffer at h
  cases hp : s.PixelUrb with
  | none =>
    simp only [hp, Option.some.injEq] at h
    subst h
    simp [hp]
  | some rows =>
    simp only [hp] at h
    by_cases hb : buf_size io.numbytes = 0
    · simp [hb] at h
    · simp only [hb, if_false] at h
      rcases ha : allocLoop env (epAddr s io.numFrames) io.numbytes
          (numurb io.numbytes).toNat 0 [] with ⟨b, urbs⟩
      rcases hs : submitLoop env io.numFrames (numurb io.numbytes).toNat 0
          (List.replicate (numurb io.numbytes).toNat 0) [] with ⟨rv, pend, tr⟩
      rw [ha, hs] at h
      cases b <;> simp only at h <;> repeat' split at h
      all_goals
        simp only [Option.some.injEq] at h
        subst h
        rfl

/-- What one step does to the two indices, the frame count and the ring pointer. -/
theorem step_indices {s s1 : State} {op : Op} (hpos : op.positive)
    (h : step s op = some s1) :
    (s1.frameIdx = s.frameIdx ∨
      s1.frameIdx = Int.tmod (s.frameIdx + 1) s.num_frames) ∧
    (s1.active_frame = s.active_frame ∨
      (s.num_frames ≠ 0 ∧
        s1.active_frame = Int.tmod (s.active_frame + 1) s.num_frames) ∨
      s1.active_frame = 0) ∧
    ((s1.num_frames = s.num_frames ∧ (s1.PixelUrb.isSome = true → s.PixelUrb.isSome = true)) ∨
      (0 < s1.num_frames ∧ s1.active_frame = 0)) := by
  cases op with
  | configure env nb n =>
    simp only [step, Option.some.injEq] at h
    subst h
    unfold setFrameSize
    by_cases hr : s.PixelUrb.isSome = true
    · rw [if_pos hr]
      exact ⟨Or.inl rfl, Or.inl rfl, Or.inl ⟨rfl, fun _ => hr⟩⟩
    · rw [if_neg hr]
      exact ⟨Or.inl rfl, Or.inr (Or.inr rfl), Or.inr ⟨hpos, rfl⟩⟩
  | arm env io =>
    simp only [step, Option.map_eq_some'] at h
    obtain ⟨o, ho, rfl⟩ := h
    obtain ⟨_, g2, _, g4, _, _, g7, _⟩ := MapUserBuffer_fields ho
    have g9 := MapUserBuffer_ring ho
    exact ⟨Or.inl g4, Or.inl g7, Or.inl ⟨g2, fun hh => by rw [← g9]; exact hh⟩⟩
  | completion f i st a =>
    simp only [step] at h
    obtain ⟨g1, g2, g3, g4⟩ := complete_indices h
    exact ⟨g4, Or.inl g1, Or.inl ⟨g2, fun hh => by rw [← g3]; exact hh⟩⟩
  | drain env =>
    simp only [step, Option.map_eq_some'] at h
    obtain ⟨o, ho, rfl⟩ := h
    obtain ⟨g1, g2, g3, g4⟩ := get_pixel_data_indices ho
    refine ⟨Or.inl g1, ?_, Or.inl ⟨g2, fun hh => by rw [← g3]; exact hh⟩⟩
    rcases g4 with g4 | g4
    · exact Or.inl g4
    · exact Or.inr (Or.inl g4)
  | unmap =>
    simp only [step, Option.some.injEq] at h
    subst h
    unfold UnMapUserBuffer
    cases hp : s.PixelUrb with
    | none => exact ⟨Or.inl rfl, Or.inl rfl, Or.inl ⟨rfl, fun hh => by simp [hp] at hh⟩⟩
    | some rows => exact ⟨Or.inl rfl, Or.inl rfl, Or.inl ⟨rfl, fun hh => by simp at hh⟩⟩

/-- The consumer index stays inside the ring along every run. -/
theorem run_consumer_index :
    ∀ (ops : List Op) (s s1 : State), (∀ op ∈ ops, op.positive) →
      (0 ≤ s.num_frames ∧
        (0 < s.num_frames → 0 ≤ s.active_frame ∧ s.active_frame < s.num_frames) ∧
        (s.PixelUrb.isSome = true → 0 < s.num_frames)) →
      run s ops = some s1 →
      0 ≤ s1.num_frames ∧
        (0 < s1.num_frames → 0 ≤ s1.active_frame ∧ s1.active_frame < s1.num_frames) ∧
        (s1.PixelUrb.isSome = true → 0 < s1.num_frames) := by
  intro ops
  induction ops with
  | nil =>
    intro s s1 _ hinv h
    simp only [run, Option.some.injEq] at h
    subst h
    exact hinv
  | cons op ops ih =>
    intro s s1 hpos hinv h
    simp only [run, Option.bind_eq_some] at h
    obtain ⟨s2, hs2, hrun⟩ := h
    obtain ⟨hn, haf, hring⟩ := hinv
    obtain ⟨_, g2, g3⟩ := step_indices (hpos op (List.mem_cons_self _ _)) hs2
    apply ih s2 s1 (fun o ho => hpos o (List.mem_cons_of_mem _ ho)) _ hrun
    rcases g3 with ⟨gn, gr⟩ | ⟨gn, ga⟩
    · refine ⟨by rw [gn]; exact hn, ?_, fun hh => by rw [gn]; exact hring (gr hh)⟩
      intro hpos2
      rw [gn] at hpos2 ⊢
      obtain ⟨a0, a1⟩ := haf hpos2
      rcases g2 with g2 | ⟨_, g2⟩ | g2
      · rw [g2]; exact ⟨a0, a1⟩
      · rw [g2, Int.tmod_eq_emod (by omega) (by omega)]
        exact ⟨Int.emod_nonneg _ (by omega), Int.emod_lt_of_pos _ hpos2⟩
      · rw [g2]; exact ⟨le_refl _, hpos2⟩
    · refine ⟨by omega, fun _ => ?_, fun _ => gn⟩
      rw [ga]
      exact ⟨le_refl _, gn⟩

/-- C18: along every run of configure (positive frame count), arm, completion, drain
and unmap steps from a freshly opened session the consumer index `active_frame` lies
in `0..N-1` whenever a ring exists, and one step leaves each index alone, moves it
from `i` to `(i + 1) mod N`, or sets it to 0. The write index `frameIdx` does not stay
in the range: after a ring of four frames received three frames and was unmapped (the
write index is 3), configuring a ring of two frames leaves a ring with `N = 2` and the
write index 3, since `PIUSB_SETFRAMESIZE` sets only `active_frame` to 0. -/
theorem C18_index_ranges :
    (∀ (iama : Int) (hEP : List Nat) (ops : List Op) (s : State),
      (∀ op ∈ ops, op.positive) → run (freshSession iama hEP) ops = some s →
      s.PixelUrb.isSome = true →
        0 ≤ s.active_frame ∧ s.active_frame < s.num_frames) ∧
    (∀ (s s1 : State) (op : Op), op.positive → step s op = some s1 →
      (s1.frameIdx = s.frameIdx ∨
        s1.frameIdx = Int.tmod (s.frameIdx + 1) s.num_frames) ∧
      (s1.active_frame = s.active_frame ∨
        s1.active_frame = Int.tmod (s.active_frame + 1) s.num_frames ∨
        s1.active_frame = 0)) ∧
    (∀ op ∈ shrinkRing, op.positive) ∧
    (run (freshSession ST133_PID sampleEP) (shrinkRing.take 9)).map
        (fun s => (s.PixelUrb.isSome, s.num_frames, s.frameIdx, s.active_frame)) =
      some (false, 4, 3, 0) ∧
    (run (freshSession ST133_PID sampleEP) shrinkRing).map
        (fun s => (s.PixelUrb.isSome, s.num_frames, s.frameIdx, s.active_frame)) =
      some (true, 2, 3, 0) := by
  refine ⟨?_, ?_, ?_, ?_, ?_⟩
  · intro iama hEP ops s hpos hrun hring
    have hinv := run_consumer_index ops (freshSession iama hEP) s hpos
      ⟨le_refl _, fun h => absurd h (lt_irrefl _),
        fun h => by simp [freshSession, piusb_open, probeState] at h⟩ hrun
    exact hinv.2.1 (hinv.2.2 hring)
  · intro s s1 op hpos h
    obtain ⟨g1, g2, _⟩ := step_indices hpos h
    refine ⟨g1, ?_⟩
    rcases g2 with g2 | ⟨_, g2⟩ | g2
    · exact Or.inl g2
    · exact Or.inr (Or.inl g2)
    · exact Or.inr (Or.inr g2)
  · intro op hop
    simp only [shrinkRing, List.mem_cons, List.mem_singleton, List.not_mem_nil, or_false] at hop
    rcases hop with rfl | rfl | rfl | rfl | rfl | rfl | rfl | rfl | rfl | rfl <;>
      simp [Op.positive]
  · decide
  · decide

/-! ## Two frames and one readout -/

theorem callback_ringExists {s s1 : State} {urb : Urb}
    (h : piusb_read_pixel_callback s urb = some s1) : ringExists s1 = ringExists s := by
  unfold piusb_read_pixel_callback at h
  split at h
  · cases h
    rfl
  · simp only at h
    split at h
    · split at h
      · cases h
      · cases h
        rfl
    · cases h
      rfl

theorem complete_ringExists {s s1 : State} {f : Int} {i : Nat} {st : Int} {a : Nat}
    (h : complete s f i st a = some s1) : ringExists s1 = ringExists s := by
  unfold complete at h
  split at h
  · cases h
    rfl
  · rw [callback_ringExists h]
    simp [ringExists, storeUrb]

theorem completeChunks_ringExists (f : Int) :
    ∀ (i : Nat) (s s1 : State), completeChunks s f i = some s1 →
      ringExists s1 = ringExists s := by
  intro i
  induction i with
  | zero =>
    intro s s1 h
    simp only [completeChunks, Option.some.injEq] at h
    rw [h]
  | succ i ih =>
    intro s s1 h
    simp only [completeChunks, Option.bind_eq_some] at h
    obtain ⟨si, hsi, hs1⟩ := h
    rw [complete_ringExists hs1, ih s si hsi]

theorem completeChunks_active (f : Int) :
    ∀ (i : Nat) (s s1 : State), completeChunks s f i = some s1 →
      s1.active_frame = s.active_frame := by
  intro i
  induction i with
  | zero =>
    intro s s1 h
    simp only [completeChunks, Option.some.injEq] at h
    rw [h]
  | succ i ih =>
    intro s s1 h
    simp only [completeChunks, Option.bind_eq_some] at h
    obtain ⟨si, hsi, hs1⟩ := h
    rw [(complete_indices hs1).1, ih s si hsi]

/-- The completions of all urbs of a frame, with the byte count the handler records
and the consumer index. -/
theorem completeChunks_frame_full {fs : Nat} {N : Int} {L : List Nat} {fi : Int}
    (hsum : L.sum = fs) (hpos : ∀ x ∈ L, 0 < x) (hne : L ≠ []) (hN0 : N ≠ 0) {f : Int}
    (hf0 : 0 ≤ f) (hf1 : f < N) (s : State) (h : Accounting s fs N L 0 fi) :
    ∃ s1, completeChunks s f L.length = some s1 ∧
      Accounting s1 fs N L 0 (Int.tmod (fi + 1) N) ∧ s1.gotPixelData = 1 ∧
      s1.bulk_in_size_returned = Int.ofNat fs ∧ s1.active_frame = s.active_frame := by
  obtain ⟨m, hm⟩ : ∃ m, L.length = m + 1 :=
    ⟨L.length - 1, by have := List.length_pos.2 hne; omega⟩
  obtain ⟨si, hsi, hacc, _⟩ := completeChunks_prefix hsum hpos hf0 hf1 m s h (by omega)
  have haf := completeChunks_active f m s si hsi
  obtain ⟨hfs, hN, harm, ht, hfi⟩ := hacc
  obtain ⟨u, hst, hal, hc, harm2⟩ :=
    complete_armed harm hf0 hf1 (show m < L.length by omega) 0 (L.getD m 0)
  have hge : fs ≤ (L.take m).sum + L.getD m 0 := by
    rw [← take_sum_succ L m (by omega), ← hm, List.take_length, hsum]
  have hcb := callback_reach (storeUrb si f m u) u hst
    (by show si.num_frames ≠ 0; rw [hN]; exact hN0)
    (by rw [hal]; show si.frameSize ≤ si.bulk_in_byte_trk + _; omega)
  have hrun : completeChunks s f L.length =
      some { storeUrb si f m u with
        bulk_in_size_returned :=
          Int.ofNat ((storeUrb si f m u).bulk_in_byte_trk + u.actual_length)
        bulk_in_byte_trk := 0
        gotPixelData := 1
        frameIdx := Int.tmod ((storeUrb si f m u).frameIdx + 1) (storeUrb si f m u).num_frames
        urbIdx := 0 } := by
    rw [hm]
    simp only [completeChunks, hsi, Option.some_bind]
    rw [armed_transferLengths harm hf0 hf1, hc, hcb]
  refine ⟨_, hrun, ⟨hfs, hN, ?_, rfl, ?_⟩, rfl, ?_, haf⟩
  · intro g hg0 hg1
    exact harm2 g hg0 hg1
  · show Int.tmod (si.frameIdx + 1) si.num_frames = _
    rw [hfi, hN]
  · show Int.ofNat ((storeUrb si f m u).bulk_in_byte_trk + u.actual_length) = Int.ofNat fs
    have : (storeUrb si f m u).bulk_in_byte_trk = si.bulk_in_byte_trk := rfl
    rw [this, hal, ht, ← take_sum_succ L m (by omega), ← hm, List.take_length, hsum]

theorem armedRing_accounting : Accounting armedRing 4096 4 [4096] 0 0 := by
  refine ⟨by decide, by decide, ?_, by decide, by decide⟩
  intro f h0 h1
  interval_cases f <;> decide

/-- C19: on a session whose ring exists, with `N ≥ 2` frames armed with the chunk
lengths `L` of a frame of `fs` bytes, with the active index `fi` and the consumer
index inside the ring and no byte counted yet, let the urbs of frame `fi` and then
those of frame `(fi + 1) % N`
complete with status 0 and the requested lengths, with no readout in between.  After
the first frame the ready flag is 1 and the active index is `(fi + 1) % N`; after the
second the ready flag is still 1 and the active index is `(fi + 2) % N`.  The first
readout (every destination writable) returns `fs` and moves the consumer index by
one; the second readout, and every readout after it, returns 0 and changes nothing.
When the consumer index was equal to the active index before the two frames, it is
afterwards one slot behind the active index. -/
theorem C19_single_ready_flag (s : State) (fs : Nat) (N : Int) (L : List Nat) (fi : Int)
    (env : DrainEnv) (hring : ringExists s = true) (hN : 2 ≤ N)
    (hacc : Accounting s fs N L 0 fi) (hsum : L.sum = fs)
    (hpos : ∀ x ∈ L, 0 < x) (hne : L ≠ []) (hfi0 : 0 ≤ fi) (hfi1 : fi < N)
    (haf0 : 0 ≤ s.active_frame) (hint : fs < 2147483648)
    (hw : ∀ a n, env.access_ok a n = true) :
    ∃ s1 s2 o, completeChunks s fi L.length = some s1 ∧
      s1.gotPixelData = 1 ∧ s1.frameIdx = (fi + 1) % N ∧
      completeChunks s1 ((fi + 1) % N) L.length = some s2 ∧
      s2.gotPixelData = 1 ∧ s2.frameIdx = (fi + 2) % N ∧
      s2.active_frame = s.active_frame ∧
      get_pixel_data env s2 = some o ∧ o.retval = Int.ofNat fs ∧
      o.state.active_frame = (s.active_frame + 1) % N ∧
      o.state.frameIdx = (fi + 2) % N ∧
      (∀ env2, get_pixel_data env2 o.state = some ⟨o.state, 0, []⟩) ∧
      (∀ envs : List DrainEnv,
        drainMany o.state envs = some (List.replicate envs.length ⟨o.state, 0, []⟩)) ∧
      (s.active_frame = fi →
        o.state.frameIdx = (o.state.active_frame + 1) % N ∧
        o.state.active_frame ≠ o.state.frameIdx) := by
  have hN0 : N ≠ 0 := by omega
  have e1 : Int.tmod (fi + 1) N = (fi + 1) % N := Int.tmod_eq_emod (by omega) (by omega)
  have hg0 : 0 ≤ (fi + 1) % N := Int.emod_nonneg _ hN0
  have hg1 : (fi + 1) % N < N := Int.emod_lt_of_pos _ (by omega)
  have e2 : Int.tmod ((fi + 1) % N + 1) N = (fi + 2) % N := by
    rw [Int.tmod_eq_emod (by omega) (by omega), Int.emod_add_emod]
    congr 1
    omega
  obtain ⟨s1, hs1, hacc1, hgot1, _, haf1⟩ :=
    completeChunks_frame_full hsum hpos hne hN0 hfi0 hfi1 s hacc
  rw [e1] at hacc1
  obtain ⟨s2, hs2, hacc2, hgot2, hsize2, haf2⟩ :=
    completeChunks_frame_full hsum hpos hne hN0 hg0 hg1 s1 hacc1
  rw [e2] at hacc2
  have hN2 : s2.num_frames = N := hacc2.2.1
  have hring2 : ringExists s2 = true := by
    rw [completeChunks_ringExists _ _ s1 s2 hs2, completeChunks_ringExists _ _ s s1 hs1]
    exact hring
  obtain ⟨o, ho, hret, _, _, hstate⟩ :=
    get_pixel_data_writable env s2 hring2 (by omega) (by omega) (fun i _ => hw _ _)
  have horing : ringExists o.state = true := by
    rw [hstate]
    exact hring2
  have hoaf : o.state.active_frame = Int.tmod (s2.active_frame + 1) s2.num_frames :=
    congrArg State.active_frame hstate
  have hofi : o.state.frameIdx = s2.frameIdx := by
    have h := congrArg State.frameIdx hstate
    exact h
  have hogot : o.state.gotPixelData = 0 := congrArg State.gotPixelData hstate
  have haf : s2.active_frame = s.active_frame := by rw [haf2, haf1]
  have hoaf2 : o.state.active_frame = (s.active_frame + 1) % N := by
    rw [hoaf, hN2, haf, Int.tmod_eq_emod (by omega) (by omega)]
  have hofi2 : o.state.frameIdx = (fi + 2) % N := by rw [hofi]; exact hacc2.2.2.2.2
  refine ⟨s1, s2, o, hs1, hgot1, hacc1.2.2.2.2, hs2, hgot2, hacc2.2.2.2.2, haf, ho, ?_,
    hoaf2, hofi2, fun env2 => get_pixel_data_not_ready env2 o.state horing hogot,
    drainMany_not_ready o.state horing hogot, ?_⟩
  · rw [hret, hsize2]
    simp only [Int.ofNat_eq_coe]
    rw [toULong_of_lt (by omega) (by omega), Int.toNat_ofNat,
      toInt32_of_lt (by omega) (by omega)]
  · intro heq
    rw [hoaf2, hofi2, heq]
    refine ⟨?_, ?_⟩
    · rw [Int.emod_add_emod, Int.add_assoc]
      rfl
    · intro hcontra
      have h4 : (fi + 2 - (fi + 1)) % N = 0 :=
        Int.emod_eq_emod_iff_emod_sub_eq_zero.1 hcontra.symm
      have h5 : fi + 2 - (fi + 1) = 1 := by omega
      rw [h5, Int.emod_eq_of_lt (by omega) (by omega)] at h4
      omega

/-- The witness of C19: the ring of four 4096 byte frames, each armed with one urb. -/
theorem C19_single_ready_flag_witness :
    ∃ s1 s2 o, completeChunks armedRing 0 [4096].length = some s1 ∧
      s1.gotPixelData = 1 ∧ s1.frameIdx = (0 + 1) % 4 ∧
      completeChunks s1 ((0 + 1) % 4) [4096].length = some s2 ∧
      s2.gotPixelData = 1 ∧ s2.frameIdx = (0 + 2) % 4 ∧
      s2.active_frame = armedRing.active_frame ∧
      get_pixel_data drainOk s2 = some o ∧ o.retval = Int.ofNat 4096 ∧
      o.state.active_frame = (armedRing.active_frame + 1) % 4 ∧
      o.state.frameIdx = (0 + 2) % 4 ∧
      (∀ env2, get_pixel_data env2 o.state = some ⟨o.state, 0, []⟩) ∧
      (∀ envs : List DrainEnv,
        drainMany o.state envs = some (List.replicate envs.length ⟨o.state, 0, []⟩)) ∧
      (armedRing.active_frame = 0 →
        o.state.frameIdx = (o.state.active_frame + 1) % 4 ∧
        o.state.active_frame ≠ o.state.frameIdx) :=
  C19_single_ready_flag armedRing 4096 4 [4096] 0 drainOk (by decide) (by decide)
    armedRing_accounting (by decide) (by decide) (by decide) (by decide) (by decide)
    (by decide) (by decide) (fun _ _ => rfl)

end Rspiusb
